import Mathlib

/-!
Verification of the TFA Dostmann 30.3215.02 radio sensor decoder
(`src/AVR/avr-tfa-rx-test/tfa.c`, `tfa.h`, `main.c`, `main.h`).

Modelling conventions (shallow embedding):
* machine integers (`uint8_t`, `uint16_t`, `int8_t`, `int16_t`) become `ℕ`/`ℤ`
  with explicit `% 2^w` where overflow matters;
* the 5-byte packet buffers (`uint8_t[TFA_BUF_BYTES]`) become `List ℕ`
  (each entry < 256 where relevant);
* the 7-slot capture buffer (`uint8_t[TFA_PACKETS][TFA_BUF_BYTES]`) becomes
  `List (List ℕ)`;
* the `float` temperature `0.1*(float)(int16_t)temp` is modelled exactly in `ℚ`
  as division by 10 (the tenths value itself is integral);
* the receive ISR (`ISR(TIMER0_COMPA_vect)`, tfa.c lines 73–168) is modelled at
  the pulse-event level: one transition per completed low pulse (the `tfa_rise`
  branch), the pulse duration in 50 µs ticks being the decoded quantity.
  `F_CPU = 8 MHz` per the comment in main.c ("internal clock of 8MHz"), making
  one tick exactly 50 µs, so the timing thresholds of tfa.h are exact rationals.
-/

namespace TFA

/-- Constants from tfa.h. -/
def TFA_BITS : ℕ := 36

/-- Bytes per packet capture (tfa.h). -/
def TFA_BUF_BYTES : ℕ := 5

/-- Capture slots per burst (tfa.h). -/
def TFA_PACKETS : ℕ := 7

/-- Sensor type id (tfa.h). -/
def TFA_TYPE : ℕ := 0x90

/-- Flag: new raw capture set received (tfa.h, `1<<0`). -/
def TFA_NEW_PACKETS : ℕ := 1

/-- Flag: new reconciled packet available (tfa.h, `1<<1`). -/
def TFA_NEW_PACKET : ℕ := 2

/-- Flag: sync button pressed (tfa.h, `1<<6`). -/
def TFA_SYNC : ℕ := 64

/-- Flag: low battery (tfa.h, `1<<7`). -/
def TFA_LOW_BATT : ℕ := 128

/-- Recognized sensor channels (tfa.h). -/
def SENSOR_CHANNELS : ℕ := 3

/-- The `TTFA` struct of tfa.h: 7×5 capture buffer, capture count, reconciled
packet, flags. -/
structure TTFA where
  data : List (List ℕ)
  packets : ℕ
  packet : List ℕ
  flags : ℕ
deriving DecidableEq

/-- The `TSensor` struct of tfa.h.  `temp` is the exact rational value of the
decoded temperature in °C (the C code stores `0.1*(float)(int16_t)temp`). -/
structure TSensor where
  id : ℕ
  channel : ℕ
  temp : ℚ
  rh : ℕ
  type : ℕ
  flags : ℕ
deriving DecidableEq

instance : Inhabited TSensor := ⟨⟨0, 0, 0, 0, 0, 0⟩⟩

/-- Reinterpretation of a `uint16_t` bit pattern as `int16_t`
(the C cast `*(int16_t*)&temp`). -/
def sint16 (x : ℕ) : ℤ := if x < 32768 then (x : ℤ) else (x : ℤ) - 65536

/-- Body of `tfa_parse` (tfa.c lines 230–242) acting on the 5 packet bytes
`p[0..4]`.  `*((uint16_t*)&tfa->packet[1])` is the little-endian word
`p[1] + 256*p[2]`, and `*((uint16_t*)&tfa->packet[3])` is `p[3] + 256*p[4]`.
Returns the filled `TSensor` and the return value `sensor->type == TFA_TYPE`. -/
def tfa_parse_bytes (p : List ℕ) : TSensor × Bool :=
  let b0 := p.getD 0 0
  let b1 := p.getD 1 0
  let b2 := p.getD 2 0
  let b3 := p.getD 3 0
  let b4 := p.getD 4 0
  let temp0 := (b1 + 256 * b2) &&& 0x0FFF
  let temp1 := if temp0 &&& 0x0800 ≠ 0 then temp0 ||| 0xF000 else temp0
  let s : TSensor :=
    { rh := b0
      temp := (sint16 temp1 : ℚ) / 10
      channel := 1 + ((b2 >>> 4) &&& 0x03)
      id := b3 &&& 0x0F
      type := ((b3 + 256 * b4) >>> 4) &&& 0xFF
      flags := TFA_NEW_PACKET ||| (b2 &&& (TFA_LOW_BATT ||| TFA_SYNC)) }
  (s, s.type == TFA_TYPE)

/-- `tfa_parse` (tfa.c lines 230–242): parse the reconciled packet of a `TTFA`. -/
def tfa_parse (tfa : TTFA) : TSensor × Bool :=
  tfa_parse_bytes tfa.packet

/-- The `TSystem` struct of main.h: accepted packet counter (`uint16_t`) and
control flags. -/
structure TSystem where
  packets : ℕ
  flags : ℕ
deriving DecidableEq

/-- State effect of the `if(type_ok)` body of the accept path in the main loop
(main.c lines 288–312) on the channel slots and the system counters: increment
the `uint16_t` packet counter, and copy the reading into its channel slot iff
the channel is in range and the slot is unlocked (`0xFF`) or locked to the
reading's identity.  (The reporting/printing side effects are I/O.) -/
def main_proc_reading (sensors : List TSensor) (syst : TSystem) (s : TSensor)
    (type_ok : Bool) : List TSensor × TSystem :=
  if type_ok then
    let syst' := { syst with packets := (syst.packets + 1) % 65536 }
    let sensors' :=
      if 0 < s.channel ∧ s.channel ≤ SENSOR_CHANNELS then
        if (sensors.getD (s.channel - 1) default).id = 0xFF ∨
            (sensors.getD (s.channel - 1) default).id = s.id then
          sensors.set (s.channel - 1) s
        else sensors
      else sensors
    (sensors', syst')
  else (sensors, syst)

/-- The `TFA:SYNC` command handler's state effect (main.c lines 214–225):
`chn = 0` (no parameter) resets the locked identity of every channel slot to
`0xFF`; `chn ∈ [1,3]` resets only slot `chn-1`. -/
def main_sync (sensors : List TSensor) (chn : ℕ) : List TSensor :=
  if chn = 0 then
    sensors.map (fun s => { s with id := 0xFF })
  else
    sensors.set (chn - 1) { sensors.getD (chn - 1) default with id := 0xFF }

/-- Balanced bounded-forall checker: `checkPow f d lo` tests `f` on the range
`[2^d * lo, 2^d * (lo+1))` by binary splitting, so that kernel evaluation
recurses only `d` levels deep. -/
def checkPow (f : ℕ → Bool) : ℕ → ℕ → Bool
  | 0, lo => f lo
  | d+1, lo => checkPow f d (2*lo) && checkPow f d (2*lo+1)

/-- CPU clock: `F_CPU = 8 MHz` (main.c: "This demo uses internal clock of 8MHz";
the constant itself lives in the build files, not under src/). -/
def F_CPU : ℚ := 8000000

/-- Desired tick rate `TFA_TICK = 50e-6` s (tfa.h). -/
def TFA_TICK : ℚ := 50 / 1000000

/-- Timer divisor `TFA_TIMER = (int)(TFA_TICK*F_CPU/8.0) - 1` (tfa.h). -/
def TFA_TIMER : ℤ := ⌊TFA_TICK * F_CPU / 8⌋ - 1

/-- Actual tick rate `TFA_TICK_REAL = 8.0*((int)TFA_TIMER+1)/F_CPU` (tfa.h). -/
def TFA_TICK_REAL : ℚ := 8 * ((TFA_TIMER : ℚ) + 1) / F_CPU

/-- Short-low data pulse duration, 1.8 ms (tfa.h). -/
def TFA_T_SHORT : ℚ := 18 / 10000

/-- Long-low data pulse duration, 3.6 ms (tfa.h). -/
def TFA_T_LONG : ℚ := 36 / 10000

/-- Low/high decision midpoint `0.5*(TFA_T_SHORT + TFA_T_LONG)` (tfa.h). -/
def TFA_T_MID : ℚ := (5 / 10) * (TFA_T_SHORT + TFA_T_LONG)

/-- Start-pulse decision threshold, 5 ms (tfa.h). -/
def TFA_T_START : ℚ := 5 / 1000

/-- Stop-pulse decision threshold `0.75*TFA_T_SHORT` (tfa.h). -/
def TFA_T_STOP : ℚ := (75 / 100) * TFA_T_SHORT

/-- End-of-transmission gap threshold, 10 ms (tfa.h). -/
def TFA_T_GAP : ℚ := 10 / 1000

/-- Glitch rejection limit, 0.2 ms (tfa.h). -/
def TFA_T_GLITCH : ℚ := 2 / 10000

/-- `TFA_IS_GLITCH(ticks)` (tfa.h line 32). -/
def TFA_IS_GLITCH (t : ℕ) : Prop := (t : ℚ) < TFA_T_GLITCH / TFA_TICK_REAL

/-- `TFA_IS_STOP(ticks)` (tfa.h line 33). -/
def TFA_IS_STOP (t : ℕ) : Prop := (t : ℚ) < TFA_T_STOP / TFA_TICK_REAL

/-- `TFA_IS_LOW(ticks)` (tfa.h line 34). -/
def TFA_IS_LOW (t : ℕ) : Prop := (t : ℚ) < TFA_T_MID / TFA_TICK_REAL

/-- `TFA_IS_HIGH(ticks)` (tfa.h line 35). -/
def TFA_IS_HIGH (t : ℕ) : Prop := (t : ℚ) ≥ TFA_T_MID / TFA_TICK_REAL

/-- `TFA_IS_START(ticks)` (tfa.h line 36). -/
def TFA_IS_START (t : ℕ) : Prop := (t : ℚ) > TFA_T_START / TFA_TICK_REAL

/-- `TFA_IS_GAP(ticks)` (tfa.h line 37). -/
def TFA_IS_GAP (t : ℕ) : Prop := (t : ℚ) > TFA_T_GAP / TFA_TICK_REAL

instance (t : ℕ) : Decidable (TFA_IS_GLITCH t) :=
  inferInstanceAs (Decidable (_ < _))

instance (t : ℕ) : Decidable (TFA_IS_STOP t) :=
  inferInstanceAs (Decidable (_ < _))

instance (t : ℕ) : Decidable (TFA_IS_LOW t) :=
  inferInstanceAs (Decidable (_ < _))

instance (t : ℕ) : Decidable (TFA_IS_HIGH t) :=
  inferInstanceAs (Decidable (_ ≤ _))

instance (t : ℕ) : Decidable (TFA_IS_START t) :=
  inferInstanceAs (Decidable (_ < _))

instance (t : ℕ) : Decidable (TFA_IS_GAP t) :=
  inferInstanceAs (Decidable (_ < _))

/-- Classified kind of a completed low pulse (tagged result of the decision
chain in the rise branch of the ISR, tfa.c lines 101–158). -/
inductive PulseKind where
  | glitch
  | stop
  | gap
  | start
  | data (value : Bool)
deriving DecidableEq

/-- The classification priority chain glitch > stop > gap > start > data as it
appears in the ISR's rise branch (tfa.c lines 104, 109, 120, 136, 143–149),
with the data-bit value from `TFA_IS_HIGH`. -/
def classify (t : ℕ) : PulseKind :=
  if TFA_IS_GLITCH t then .glitch
  else if TFA_IS_STOP t then .stop
  else if TFA_IS_GAP t then .gap
  else if TFA_IS_START t then .start
  else .data (decide (TFA_IS_HIGH t))

/-- Persistent framer state of the ISR (tfa.c lines 92–94):
`tfa_buf[TFA_PACKETS][TFA_BUF_BYTES]`, `tfa_buf_bit` (`int8_t`),
`tfa_buf_packet` (`uint8_t`). -/
structure FrameState where
  buf : List (List ℕ)
  bit : ℤ
  packet : ℕ
deriving DecidableEq

/-- The data-bit store (tfa.c lines 149–154): write bit value `data` at bit
position `pos` of the 5-byte capture (`byte = pos>>3`, `bit mask =
1<<(pos&7)`).  `*byte & ~bit` on a `uint8_t` is modelled as
`byte &&& (255 ^^^ mask)`. -/
def writeDataBit (cap : List ℕ) (pos : ℕ) (data : Bool) : List ℕ :=
  let mask := 1 <<< (pos &&& 0x07)
  let b0 := cap.getD (pos >>> 3) 0
  let b1 := b0 &&& (255 ^^^ mask)
  let b2 := if data then b1 ||| mask else b1
  cap.set (pos >>> 3) b2

/-- The rise branch of `ISR(TIMER0_COMPA_vect)` (tfa.c lines 101–158): decode
one completed low pulse of duration `t` ticks, updating the framer state and —
on an end-of-transmission gap with an acceptable repetition count — publishing
the capture set into the shared `TTFA` (tfa.c lines 120–135). -/
def tfa_rise (t : ℕ) (s : FrameState) (tfa : TTFA) : FrameState × TTFA :=
  if TFA_IS_GLITCH t then
    ({ s with bit := -1 }, tfa)
  else if TFA_IS_STOP t then
    (if s.bit = 0 then
      { s with bit := s.bit - 1,
               packet := if s.packet < TFA_PACKETS + 1 then s.packet + 1 else s.packet }
     else s, tfa)
  else if TFA_IS_GAP t then
    let tfa' :=
      if 3 ≤ s.packet ∧ s.packet ≤ TFA_PACKETS then
        { tfa with data := s.buf, packets := s.packet,
                   flags := tfa.flags ||| TFA_NEW_PACKETS }
      else tfa
    ({ s with packet := 0 }, tfa')
  else if TFA_IS_START t then
    ({ s with bit := TFA_BITS,
              buf := if s.packet < TFA_PACKETS then
                  s.buf.set s.packet ((s.buf.getD s.packet []).set (TFA_BUF_BYTES - 1) 0)
                else s.buf }, tfa)
  else
    (if 0 < s.bit ∧ s.packet < TFA_PACKETS then
      { s with bit := s.bit - 1,
               buf := s.buf.set s.packet
                 (writeDataBit (s.buf.getD s.packet []) (s.bit - 1).toNat
                   (decide (TFA_IS_HIGH t))) }
     else if 0 ≤ s.bit then { s with bit := s.bit - 1 }
     else s, tfa)

/-- Run the ISR rise handler over a sequence of completed low-pulse durations. -/
def tfa_run (pulses : List ℕ) (s : FrameState) (tfa : TTFA) : FrameState × TTFA :=
  pulses.foldl (fun st t => tfa_rise t st.1 st.2) (s, tfa)

/-- C array read `a[n]` for an `int8_t` array modelled as `List ℤ`
(out-of-range reads cannot occur in the modelled code). -/
def getI : List ℤ → ℕ → ℤ
  | [], _ => 0
  | a :: _, 0 => a
  | _ :: as, n+1 => getI as n

/-- C array write `a[n] = v` for an `int8_t` array modelled as `List ℤ`. -/
def setI : List ℤ → ℕ → ℤ → List ℤ
  | [], _, _ => []
  | _ :: as, 0, v => v :: as
  | a :: as, n+1, v => a :: setI as n v

/-- C array read `a[n]` for a `uint8_t` array modelled as `List ℕ`. -/
def getN : List ℕ → ℕ → ℕ
  | [], _ => 0
  | a :: _, 0 => a
  | _ :: as, n+1 => getN as n

/-- Scan state of `tfa_proc_packets` (tfa.c lines 189–192): `counts`
(`int8_t[TFA_PACKETS]`), `maxv[0]`, `maxv[1]`, `maxid`. -/
structure ProcScan where
  counts : List ℤ
  maxv0 : ℤ
  maxv1 : ℤ
  maxid : ℕ
deriving DecidableEq

/-- Inner loop body of the packet scan (tfa.c lines 199–211) for outer index
`m` and inner index `n`; `beq m n` models
`!memcmp(&buf[m][0],&buf[n][0],TFA_BUF_BYTES)`. -/
def proc_inner (beq : ℕ → ℕ → Bool) (m : ℕ) (st : ProcScan) (n : ℕ) : ProcScan :=
  match st with
  | ⟨counts, maxv0, maxv1, maxid⟩ =>
    bif (getI counts n == 0) && beq m n then
      let cm := getI counts m + 1
      let counts1 := setI counts m cm
      match (bif cm > maxv0 then (⟨counts1, cm, maxv0, m⟩ : ProcScan)
            else ⟨counts1, maxv0, maxv1, maxid⟩) with
      | ⟨counts2, a0, a1, aid⟩ =>
        bif getI counts2 n != 0 then ⟨setI counts2 n (-1), a0, a1, aid⟩
        else ⟨counts2, a0, a1, aid⟩
    else st

/-- The inner `for(n = 0; n < packets; n++)` loop (tfa.c line 197), written
with an explicit remaining-iterations fuel. -/
def inner_loop (beq : ℕ → ℕ → Bool) (m : ℕ) : ProcScan → ℕ → ℕ → ProcScan
  | st, _, 0 => st
  | st, n, fuel+1 => inner_loop beq m (proc_inner beq m st n) (n+1) fuel

/-- Outer loop body of the packet scan (tfa.c lines 193–213): skip `m` when
`counts[m] != 0`, else run the inner loop over all `n < packets`. -/
def proc_outer (beq : ℕ → ℕ → Bool) (packets : ℕ) (st : ProcScan) (m : ℕ) :
    ProcScan :=
  bif getI st.counts m != 0 then st
  else inner_loop beq m st 0 packets

/-- The outer `for(m = 0; m < packets; m++)` loop (tfa.c line 193). -/
def outer_loop (beq : ℕ → ℕ → Bool) (packets : ℕ) : ProcScan → ℕ → ℕ → ProcScan
  | st, _, 0 => st
  | st, m, fuel+1 => outer_loop beq packets (proc_outer beq packets st m) (m+1) fuel

/-- The full packet scan of `tfa_proc_packets` (tfa.c lines 189–213), starting
from zeroed `counts` (`memset`, line 190) and `maxv = {0,0}`, `maxid = 0`. -/
def proc_scan (beq : ℕ → ℕ → Bool) (packets : ℕ) : ProcScan :=
  outer_loop beq packets ⟨[0, 0, 0, 0, 0, 0, 0], 0, 0, 0⟩ 0 packets

/-- `tfa_proc_packets` (tfa.c lines 172–227): reconcile the received capture
set into `tfa->packet`.  Returns the C return value together with the updated
`TTFA`.  `flags &= ~TFA_NEW_PACKETS` on a `uint8_t` is `flags &&& 254`. -/
def tfa_proc_packets (tfa : TTFA) : ℕ × TTFA :=
  if tfa.flags &&& TFA_NEW_PACKETS = 0 then (0, tfa)
  else
    let buf := tfa.data
    let packets := tfa.packets
    let tfa1 := { tfa with flags := tfa.flags &&& 254 }
    let st := proc_scan (fun m n => buf.getD m [] == buf.getD n []) packets
    if st.maxv0 = st.maxv1 then (0, tfa1)
    else
      (1, { tfa1 with packet := buf.getD st.maxid [],
                      flags := (tfa.flags &&& 254) ||| TFA_NEW_PACKET })

/-- The packet byte layout of spec section 3 (the wire format table): build the
5 capture bytes from the semantic fields.  This definition follows the spec's
words, for comparison against the decoder. -/
def spec_layout_bytes (rh temp12 chn2 : ℕ) (sync batt : Bool) (id4 type8 : ℕ) :
    List ℕ :=
  [rh,
   temp12 % 256,
   temp12 / 256 + 16 * chn2 + 64 * (if sync then 1 else 0) +
     128 * (if batt then 1 else 0),
   id4 + 16 * (type8 % 16),
   type8 / 16]

/-- Bit `pos` of a 5-byte capture (byte `pos/8`, bit `pos%8`). -/
def capBit (bytes : List ℕ) (pos : ℕ) : Bool :=
  (bytes.getD (pos / 8) 0).testBit (pos % 8)

/-- The 36 wire bits of a capture in reception order: the i-th received bit is
stored at capture bit position `35-i`, so wire bit `i` is capture bit `35-i`. -/
def spec_wire_bits (bytes : List ℕ) : List Bool :=
  (List.range 36).map (fun i => capBit bytes (35 - i))

/-- A representative data-bit pulse duration in ticks: 72 ticks = 3.6 ms for a
1 bit, 36 ticks = 1.8 ms for a 0 bit (the nominal timings of tfa.h). -/
def dataPulse (b : Bool) : ℕ := if b then 72 else 36

/-- A representative start pulse: 160 ticks = 8 ms. -/
def startPulse : ℕ := 160

/-- A representative stop pulse: 10 ticks = 0.5 ms. -/
def stopPulse : ℕ := 10

/-- A representative inter-burst gap: 250 ticks = 12.5 ms. -/
def gapPulse : ℕ := 250

/-- A concrete all-zero framer state (idle countdown, repetition index 0). -/
def fs0 : FrameState := ⟨List.replicate 7 (List.replicate 5 0), -1, 0⟩

/-- A concrete framer state that has just finished its 7th full repetition:
countdown at 0, repetition index at capacity 7. -/
def fs7 : FrameState := ⟨List.replicate 7 (List.replicate 5 0), 0, 7⟩

/-- A concrete all-zero shared `TTFA`. -/
def ttfa0 : TTFA := ⟨List.replicate 7 (List.replicate 5 0), 0, List.replicate 5 0, 0⟩

/-- A concrete 5-byte capture `A` used in reconciler examples. -/
def capA : List ℕ := [1, 2, 3, 4, 5]

/-- A concrete 5-byte capture `B ≠ A` used in reconciler examples. -/
def capB : List ℕ := [6, 7, 8, 9, 10]

/-- A concrete `TTFA` holding a freshly published 6-capture burst forming two
byte-equality groups of size 3 each (a reconciliation tie). -/
def ttfaTie : TTFA :=
  ⟨[capA, capA, capA, capB, capB, capB, List.replicate 5 0], 6,
   List.replicate 5 0, TFA_NEW_PACKETS⟩

/-- An unlocked channel slot (identity `0xFF`, as initialised in main.c). -/
def sensUnlocked : TSensor := ⟨0xFF, 0, 0, 0, 0, 0⟩

/-- A channel slot locked to identity 5. -/
def sensLocked5 : TSensor := ⟨5, 0, 0, 0, 0, 0⟩

/-- A concrete valid reading: identity 9, channel 2. -/
def sensReading : TSensor := ⟨9, 2, 0, 45, 0x90, 2⟩

/-- A concrete valid reading whose decoded channel is 4. -/
def sensChan4 : TSensor := ⟨0, 4, 0, 0, 0x90, 2⟩

/-- All three channel slots unlocked (startup state of main.c). -/
def slotsFF : List TSensor := [sensUnlocked, sensUnlocked, sensUnlocked]

/-- Channel slots with slot 2 locked to identity 5. -/
def slotsMix : List TSensor := [sensUnlocked, sensLocked5, sensUnlocked]

/-- Initial system state of main.c (`{0, SYST_TALK|SYST_HEAD}`). -/
def syst0 : TSystem := ⟨0, 3⟩

/-- Majority-selection property of the packet scan over a capture set given by
its equality pattern: `L.getD i 0` is the canonical label (index of the first
byte-equal capture) of capture `i`.  Checks that whenever some label occurs at
least 4 times among the 7 captures, the scan ends with `maxv[0] ≠ maxv[1]` and
`maxid` pointing into that majority group. -/
def c3count (v : ℕ) : List ℕ → ℕ
  | [] => 0
  | a :: as => (bif a == v then 1 else 0) + c3count v as

/-- One majority check: if label `v` occurs at least 4 times in `L`, the scan
must end with `maxv[0] ≠ maxv[1]` and `maxid` labelled `v`. -/
def c3check (L : List ℕ) (v : ℕ) : Bool :=
  bif 4 ≤ c3count v L then
    match proc_scan (fun m n => getN L m == getN L n) 7 with
    | ⟨_, maxv0, maxv1, maxid⟩ =>
      (maxv0 != maxv1) && (decide (maxid < 7)) && (getN L maxid == v)
  else true

def c3prop (L : List ℕ) : Bool :=
  c3check L 0 && c3check L 1 && c3check L 2 && c3check L 3 &&
  c3check L 4 && c3check L 5 && c3check L 6

/-- Canonicity filter: in a canonical labelling (each capture labelled by the
index of the first byte-equal capture) every used label labels itself. -/
def c3canon (L : List ℕ) : Bool :=
  (getN L (getN L 1) == getN L 1) && (getN L (getN L 2) == getN L 2) &&
  (getN L (getN L 3) == getN L 3) && (getN L (getN L 4) == getN L 4) &&
  (getN L (getN L 5) == getN L 5) && (getN L (getN L 6) == getN L 6)

/-- `c3prop` on the canonical-label list decoded from a 14-bit code
(1+2+2+3+3+3 bits for labels 1..6; label 0 is always 0); codes whose decoded
labels violate the canonical bound `label i ≤ i` are skipped. -/
def c3body (code : ℕ) : Bool :=
  if code / 2 % 4 ≤ 2 ∧ code / 32 % 8 ≤ 4 ∧ code / 256 % 8 ≤ 5 ∧
      code / 2048 % 8 ≤ 6 then
    bif c3canon [0, code % 2, code / 2 % 4, code / 8 % 4, code / 32 % 8,
                 code / 256 % 8, code / 2048 % 8] then
      c3prop [0, code % 2, code / 2 % 4, code / 8 % 4, code / 32 % 8,
              code / 256 % 8, code / 2048 % 8]
    else true
  else true

/-- A third distinct concrete capture. -/
def capC : List ℕ := [11, 12, 13, 14, 15]

/-- A fourth distinct concrete capture. -/
def capD : List ℕ := [16, 17, 18, 19, 20]

/-- A concrete `TTFA` holding a published 7-capture burst with a majority
group of 4 copies of `capA` (at slots 1, 2, 4, 6) and three other pairwise
distinct captures. -/
def ttfaMaj : TTFA :=
  ⟨[capB, capA, capA, capC, capA, capD, capA], 7,
   List.replicate 5 0, TFA_NEW_PACKETS⟩

/-- The effect of the data-bit branch over a whole bit sequence: write the
bits of `bs` at positions `c-1, c-2, …` of a capture (the framer's countdown
placement, tfa.c lines 146–155 iterated). -/
def putBits (cap : List ℕ) : List Bool → ℕ → List ℕ
  | [], _ => cap
  | b :: rest, c => putBits (writeDataBit cap (c - 1) b) rest (c - 1)

theorem checkPow_spec (f : ℕ → Bool) : ∀ d lo, checkPow f d lo = true →
    ∀ i, i < 2^d → f (2^d * lo + i) = true := by
  intro d
  induction d with
  | zero =>
    intro lo h i hi
    interval_cases i
    simpa [checkPow] using h
  | succ d ih =>
    intro lo h i hi
    simp only [checkPow, Bool.and_eq_true] at h
    by_cases hc : i < 2^d
    · have e : 2^(d+1) * lo + i = 2^d * (2*lo) + i := by ring_nf
      rw [e]
      exact ih (2*lo) h.1 i hc
    · have e : 2^(d+1) * lo + i = 2^d * (2*lo+1) + (i - 2^d) := by
        have h1 : 2^(d+1) * lo = 2^d * (2*lo) := by ring
        have h2 : 2^d * (2*lo+1) = 2^d * (2*lo) + 2^d := by ring
        omega
      rw [e]
      exact ih (2*lo+1) h.2 (i - 2^d) (by omega)

theorem checkPow_ball (f : ℕ → Bool) (d : ℕ) (h : checkPow f d 0 = true) :
    ∀ i, i < 2^d → f i = true := by
  intro i hi
  have := checkPow_spec f d 0 h i hi
  simpa using this

theorem TFA_TIMER_eq : TFA_TIMER = 49 := by
  norm_num [TFA_TIMER, TFA_TICK, F_CPU]

theorem TFA_TICK_REAL_eq : TFA_TICK_REAL = 1 / 20000 := by
  rw [TFA_TICK_REAL, TFA_TIMER_eq, F_CPU]
  norm_num

theorem is_glitch_iff (t : ℕ) : TFA_IS_GLITCH t ↔ t < 4 := by
  rw [TFA_IS_GLITCH, TFA_TICK_REAL_eq, TFA_T_GLITCH]
  norm_num

theorem is_stop_iff (t : ℕ) : TFA_IS_STOP t ↔ t < 27 := by
  rw [TFA_IS_STOP, TFA_TICK_REAL_eq, TFA_T_STOP, TFA_T_SHORT]
  norm_num

theorem is_high_iff (t : ℕ) : TFA_IS_HIGH t ↔ 54 ≤ t := by
  rw [TFA_IS_HIGH, TFA_TICK_REAL_eq, TFA_T_MID, TFA_T_SHORT, TFA_T_LONG]
  norm_num

theorem is_start_iff (t : ℕ) : TFA_IS_START t ↔ 100 < t := by
  rw [TFA_IS_START, TFA_TICK_REAL_eq, TFA_T_START]
  norm_num

theorem is_gap_iff (t : ℕ) : TFA_IS_GAP t ↔ 200 < t := by
  rw [TFA_IS_GAP, TFA_TICK_REAL_eq, TFA_T_GAP]
  norm_num

/-- The 12-bit sign-extension step of `tfa_parse` (tfa.c lines 234–236),
characterised as two's-complement interpretation of the low 12 bits. -/
theorem temp_signext : ∀ x, x < 4096 →
    sint16 (if x &&& 2048 ≠ 0 then x ||| 61440 else x) =
      (if x < 2048 then (x : ℤ) else (x : ℤ) - 4096) := by
  intro x hx
  have h := checkPow_ball
    (fun x => decide (sint16 (if x &&& 2048 ≠ 0 then x ||| 61440 else x) =
      (if x < 2048 then (x : ℤ) else (x : ℤ) - 4096))) 12 (by rfl) x
    (by simpa using hx)
  exact of_decide_eq_true h

/-- C8: for every 5-byte packet, `tfa_parse` decodes the temperature from the
low 12 bits of `(b2<<8 | b1)` by replicating bit 11 into bits 12–15 and
interpreting the result as a signed 16-bit integer (two's-complement 12-bit
value), scaled by 0.1 °C; in particular raw 4088 (`0xFF8`) yields −0.8 °C and
raw `0x800` yields −204.8 °C. -/
theorem C8_temperature_sign_extension :
    (∀ p : List ℕ,
      (tfa_parse_bytes p).1.temp =
        (((if (p.getD 1 0 + 256 * p.getD 2 0) % 4096 < 2048 then
            (((p.getD 1 0 + 256 * p.getD 2 0) % 4096 : ℕ) : ℤ)
          else (((p.getD 1 0 + 256 * p.getD 2 0) % 4096 : ℕ) : ℤ) - 4096) : ℤ) : ℚ) / 10) ∧
    (tfa_parse_bytes [0, 0xF8, 0x0F, 0, 0]).1.temp = -8/10 ∧
    (tfa_parse_bytes [0, 0x00, 0x08, 0, 0]).1.temp = -2048/10 := by
  have hg : ∀ p : List ℕ,
      (tfa_parse_bytes p).1.temp =
        (((if (p.getD 1 0 + 256 * p.getD 2 0) % 4096 < 2048 then
            (((p.getD 1 0 + 256 * p.getD 2 0) % 4096 : ℕ) : ℤ)
          else (((p.getD 1 0 + 256 * p.getD 2 0) % 4096 : ℕ) : ℤ) - 4096) : ℤ) : ℚ) / 10 := by
    intro p
    have hm : (p.getD 1 0 + 256 * p.getD 2 0) &&& 4095 =
        (p.getD 1 0 + 256 * p.getD 2 0) % 4096 := by
      have h12 : (4095:ℕ) = 2^12 - 1 := rfl
      rw [h12, Nat.and_pow_two_sub_one_eq_mod]
    have hlt : (p.getD 1 0 + 256 * p.getD 2 0) % 4096 < 4096 :=
      Nat.mod_lt _ (by norm_num)
    simp only [tfa_parse_bytes, hm, temp_signext _ hlt]
  refine ⟨hg, ?_, ?_⟩
  · rw [hg]
    norm_num [List.getD]
  · rw [hg]
    norm_num [List.getD]

/-- C9: for every pulse duration below the glitch threshold, the classifier
yields glitch and the framer's only state change is setting the bit countdown
to the idle value −1: repetition index, all captures of the current burst, and
the shared `TTFA` are left unchanged. -/
theorem C9_glitch_aborts_only_in_progress (t : ℕ) (s : FrameState) (tfa : TTFA)
    (h : (t : ℚ) < TFA_T_GLITCH / TFA_TICK_REAL) :
    classify t = .glitch ∧
    tfa_rise t s tfa = ({ s with bit := -1 }, tfa) ∧
    (tfa_rise t s tfa).1.buf = s.buf ∧
    (tfa_rise t s tfa).1.packet = s.packet ∧
    (tfa_rise t s tfa).2 = tfa := by
  have hg : TFA_IS_GLITCH t := h
  refine ⟨?_, ?_, ?_, ?_, ?_⟩ <;> simp [classify, tfa_rise, hg]

/-- Witness for C9 at the concrete glitch duration 2 ticks (0.1 ms). -/
theorem C9_witness :
    classify 2 = .glitch ∧ tfa_rise 2 fs0 ttfa0 = ({ fs0 with bit := -1 }, ttfa0) := by
  have h := C9_glitch_aborts_only_in_progress 2 fs0 ttfa0
    (by rw [TFA_TICK_REAL_eq, TFA_T_GLITCH]; norm_num)
  exact ⟨h.1, h.2.1⟩

/-- C6: on an inter-burst gap the framer publishes the capture set (copies all
capture bytes, sets the count and the new-burst flag) iff the repetition count
is in [3,7]; otherwise the shared `TTFA` is untouched; in both cases the
repetition index resets to 0. -/
theorem C6_gap_publishes_iff_count_valid (t : ℕ) (s : FrameState) (tfa : TTFA)
    (h : (t : ℚ) > TFA_T_GAP / TFA_TICK_REAL) :
    classify t = .gap ∧
    (tfa_rise t s tfa).1 = { s with packet := 0 } ∧
    (3 ≤ s.packet ∧ s.packet ≤ TFA_PACKETS →
      (tfa_rise t s tfa).2 =
        { tfa with data := s.buf, packets := s.packet,
                   flags := tfa.flags ||| TFA_NEW_PACKETS }) ∧
    (¬(3 ≤ s.packet ∧ s.packet ≤ TFA_PACKETS) → (tfa_rise t s tfa).2 = tfa) := by
  have hgap : TFA_IS_GAP t := h
  have ht : 200 < t := (is_gap_iff t).mp hgap
  have hng : ¬ TFA_IS_GLITCH t := by rw [is_glitch_iff]; omega
  have hns : ¬ TFA_IS_STOP t := by rw [is_stop_iff]; omega
  refine ⟨by simp [classify, hng, hns, hgap], ?_, ?_, ?_⟩ <;>
    by_cases hc : 3 ≤ s.packet ∧ s.packet ≤ TFA_PACKETS <;>
    simp [tfa_rise, hng, hns, hgap, hc]

/-- Witness for C6 at gap duration 250 ticks, once with a publishable count of
5 repetitions and once with an unpublishable count of 2. -/
theorem C6_witness :
    (tfa_rise 250 { fs0 with packet := 5 } ttfa0).2 =
      { ttfa0 with data := fs0.buf, packets := 5,
                   flags := ttfa0.flags ||| TFA_NEW_PACKETS } ∧
    (tfa_rise 250 { fs0 with packet := 2 } ttfa0).2 = ttfa0 ∧
    (tfa_rise 250 { fs0 with packet := 2 } ttfa0).1 =
      { fs0 with packet := 0 } := by
  obtain ⟨-, -, h5pub, -⟩ := C6_gap_publishes_iff_count_valid 250
    { fs0 with packet := 5 } ttfa0 (by rw [TFA_TICK_REAL_eq, TFA_T_GAP]; norm_num)
  obtain ⟨-, h2fs, -, h2no⟩ := C6_gap_publishes_iff_count_valid 250
    { fs0 with packet := 2 } ttfa0 (by rw [TFA_TICK_REAL_eq, TFA_T_GAP]; norm_num)
  refine ⟨?_, ?_, ?_⟩
  · have := h5pub (by decide)
    simpa using this
  · exact h2no (by decide)
  · exact h2fs

/-- C5: the classifier follows the short-circuit priority chain
glitch > stop > gap > start > data, the data-bit value is 1 iff the duration
is at or above the midpoint threshold, the midpoint is the average of the two
data-pulse reference durations, and the ISR rise handler dispatches exactly on
this classification. -/
theorem C5_classifier_priority_chain :
    (∀ t, classify t = .glitch ↔ TFA_IS_GLITCH t) ∧
    (∀ t, classify t = .stop ↔ (¬ TFA_IS_GLITCH t ∧ TFA_IS_STOP t)) ∧
    (∀ t, classify t = .gap ↔
      (¬ TFA_IS_GLITCH t ∧ ¬ TFA_IS_STOP t ∧ TFA_IS_GAP t)) ∧
    (∀ t, classify t = .start ↔
      (¬ TFA_IS_GLITCH t ∧ ¬ TFA_IS_STOP t ∧ ¬ TFA_IS_GAP t ∧ TFA_IS_START t)) ∧
    (∀ t b, classify t = .data b ↔
      (¬ TFA_IS_GLITCH t ∧ ¬ TFA_IS_STOP t ∧ ¬ TFA_IS_GAP t ∧
        ¬ TFA_IS_START t ∧ (b = true ↔ (t : ℚ) ≥ TFA_T_MID / TFA_TICK_REAL))) ∧
    TFA_T_MID = (TFA_T_SHORT + TFA_T_LONG) / 2 ∧
    (∀ t s tfa, tfa_rise t s tfa =
      match classify t with
      | .glitch => ({ s with bit := -1 }, tfa)
      | .stop =>
        (if s.bit = 0 then
          { s with bit := s.bit - 1,
                   packet := (if s.packet < TFA_PACKETS + 1 then s.packet + 1
                             else s.packet) }
         else s, tfa)
      | .gap =>
        ({ s with packet := 0 },
         if 3 ≤ s.packet ∧ s.packet ≤ TFA_PACKETS then
           { tfa with data := s.buf, packets := s.packet,
                      flags := tfa.flags ||| TFA_NEW_PACKETS }
         else tfa)
      | .start =>
        ({ s with bit := TFA_BITS,
                  buf := if s.packet < TFA_PACKETS then
                      s.buf.set s.packet
                        ((s.buf.getD s.packet []).set (TFA_BUF_BYTES - 1) 0)
                    else s.buf }, tfa)
      | .data b =>
        (if 0 < s.bit ∧ s.packet < TFA_PACKETS then
          { s with bit := s.bit - 1,
                   buf := s.buf.set s.packet
                     (writeDataBit (s.buf.getD s.packet []) (s.bit - 1).toNat b) }
         else if 0 ≤ s.bit then { s with bit := s.bit - 1 }
         else s, tfa)) := by
  have hdisp : ∀ t, TFA_IS_HIGH t ↔ (t : ℚ) ≥ TFA_T_MID / TFA_TICK_REAL := by
    intro t
    exact Iff.rfl
  refine ⟨?_, ?_, ?_, ?_, ?_, ?_, ?_⟩
  · intro t
    by_cases h1 : TFA_IS_GLITCH t <;>
      by_cases h2 : TFA_IS_STOP t <;>
      by_cases h3 : TFA_IS_GAP t <;>
      by_cases h4 : TFA_IS_START t <;>
      simp [classify, h1, h2, h3, h4]
  · intro t
    by_cases h1 : TFA_IS_GLITCH t <;>
      by_cases h2 : TFA_IS_STOP t <;>
      by_cases h3 : TFA_IS_GAP t <;>
      by_cases h4 : TFA_IS_START t <;>
      simp [classify, h1, h2, h3, h4]
  · intro t
    by_cases h1 : TFA_IS_GLITCH t <;>
      by_cases h2 : TFA_IS_STOP t <;>
      by_cases h3 : TFA_IS_GAP t <;>
      by_cases h4 : TFA_IS_START t <;>
      simp [classify, h1, h2, h3, h4]
  · intro t
    by_cases h1 : TFA_IS_GLITCH t <;>
      by_cases h2 : TFA_IS_STOP t <;>
      by_cases h3 : TFA_IS_GAP t <;>
      by_cases h4 : TFA_IS_START t <;>
      simp [classify, h1, h2, h3, h4]
  · intro t b
    by_cases h1 : TFA_IS_GLITCH t <;>
      by_cases h2 : TFA_IS_STOP t <;>
      by_cases h3 : TFA_IS_GAP t <;>
      by_cases h4 : TFA_IS_START t <;>
      by_cases h5 : TFA_IS_HIGH t <;>
      simp [classify, h1, h2, h3, h4, h5, ← hdisp t]
  · rw [TFA_T_MID]
    ring
  · intro t s tfa
    by_cases h1 : TFA_IS_GLITCH t <;>
      by_cases h2 : TFA_IS_STOP t <;>
      by_cases h3 : TFA_IS_GAP t <;>
      by_cases h4 : TFA_IS_START t <;>
      simp [classify, tfa_rise, h1, h2, h3, h4]

/-- Counterexample to C2: a stop bit arriving with the countdown at zero and
the repetition index already at the capacity 7 advances the index to 8 —
beyond the capacity of 7 — because the code bounds the increment by
`tfa_buf_packet < TFA_PACKETS+1` (tfa.c line 116). -/
theorem C2_counterexample :
    TFA_IS_STOP stopPulse ∧ ¬ TFA_IS_GLITCH stopPulse ∧
    fs7.bit = 0 ∧ fs7.packet = TFA_PACKETS ∧
    (tfa_rise stopPulse fs7 ttfa0).1.packet = TFA_PACKETS + 1 ∧
    ¬ ((tfa_rise stopPulse fs7 ttfa0).1.packet ≤ TFA_PACKETS) := by
  have h1 : TFA_IS_STOP stopPulse := by rw [is_stop_iff]; norm_num [stopPulse]
  have h0 : ¬ TFA_IS_GLITCH stopPulse := by rw [is_glitch_iff]; norm_num [stopPulse]
  refine ⟨h1, h0, rfl, rfl, ?_, ?_⟩ <;>
    simp [tfa_rise, h0, h1, fs7, TFA_PACKETS]

/-- C2 (amended): on a stop bit with the countdown at zero the framer advances
the repetition index by one, bounded at capacity+1 = 8 (not at 7); the index
invariantly stays ≤ 8 under every pulse, captures already stored are never
modified once the index has reached the capacity 7, and the published capture
count of the hand-off buffer is only ever set to a value in [3,7]. -/
theorem C2_repetition_index_bounded (t : ℕ) (s : FrameState) (tfa : TTFA)
    (hstop : TFA_IS_STOP t) (hng : ¬ TFA_IS_GLITCH t) (hbit : s.bit = 0) :
    ((tfa_rise t s tfa).1.packet =
      if s.packet < TFA_PACKETS + 1 then s.packet + 1 else s.packet) ∧
    (tfa_rise t s tfa).1.buf = s.buf ∧
    (tfa_rise t s tfa).2 = tfa ∧
    (∀ t' (s' : FrameState) tfa', s'.packet ≤ TFA_PACKETS + 1 →
      (tfa_rise t' s' tfa').1.packet ≤ TFA_PACKETS + 1) ∧
    (∀ t' (s' : FrameState) tfa', TFA_PACKETS ≤ s'.packet →
      (tfa_rise t' s' tfa').1.buf = s'.buf) ∧
    (∀ t' (s' : FrameState) tfa', (tfa_rise t' s' tfa').2.packets = tfa'.packets ∨
      (3 ≤ (tfa_rise t' s' tfa').2.packets ∧
        (tfa_rise t' s' tfa').2.packets ≤ TFA_PACKETS)) := by
  refine ⟨by simp [tfa_rise, hstop, hng, hbit],
          by simp [tfa_rise, hstop, hng, hbit],
          by simp [tfa_rise, hstop, hng, hbit], ?_, ?_, ?_⟩
  · intro t' s' tfa' hp
    by_cases h1 : TFA_IS_GLITCH t' <;> by_cases h2 : TFA_IS_STOP t' <;>
      by_cases h3 : TFA_IS_GAP t' <;> by_cases h4 : TFA_IS_START t'
    all_goals (try simp [tfa_rise, h1, h2, h3, h4, TFA_PACKETS] at hp ⊢)
    all_goals (try split_ifs)
    all_goals (try simp_all [TFA_PACKETS])
    all_goals omega
  · intro t' s' tfa' hp
    by_cases h1 : TFA_IS_GLITCH t' <;> by_cases h2 : TFA_IS_STOP t' <;>
      by_cases h3 : TFA_IS_GAP t' <;> by_cases h4 : TFA_IS_START t'
    all_goals (try simp [tfa_rise, h1, h2, h3, h4, TFA_PACKETS] at hp ⊢)
    all_goals (try split_ifs)
    all_goals (try simp_all [TFA_PACKETS])
    all_goals omega
  · intro t' s' tfa'
    by_cases h1 : TFA_IS_GLITCH t' <;> by_cases h2 : TFA_IS_STOP t' <;>
      by_cases h3 : TFA_IS_GAP t' <;> by_cases h4 : TFA_IS_START t'
    all_goals (try simp [tfa_rise, h1, h2, h3, h4, TFA_PACKETS])
    all_goals (try split_ifs)
    all_goals simp_all [TFA_PACKETS]

/-- Witness for the amended C2 at the concrete stop pulse and a state with 3
completed repetitions. -/
theorem C2_witness :
    (tfa_rise stopPulse { fs0 with bit := 0, packet := 3 } ttfa0).1.packet = 4 ∧
    (tfa_rise stopPulse { fs0 with bit := 0, packet := 3 } ttfa0).2 = ttfa0 := by
  obtain ⟨hpk, -, htfa, -, -, -⟩ :=
    C2_repetition_index_bounded stopPulse { fs0 with bit := 0, packet := 3 } ttfa0
      (by rw [is_stop_iff]; norm_num [stopPulse])
      (by rw [is_glitch_iff]; norm_num [stopPulse]) rfl
  refine ⟨?_, htfa⟩
  rw [hpk]
  decide

/-- C7: a valid reading with channel in 1..3 overwrites its channel slot and
its identity becomes the slot's lock when the slot is unlocked (`0xFF`) or
already locked to that identity; on identity mismatch the slot is left
completely unchanged; resync sets the targeted slot's (or all slots') locked
identity back to `0xFF` without clearing the stored reading. -/
theorem C7_identity_locking :
    (∀ sensors (syst : TSystem) (s : TSensor), sensors.length = SENSOR_CHANNELS →
      1 ≤ s.channel → s.channel ≤ SENSOR_CHANNELS →
      ((sensors.getD (s.channel - 1) default).id = 0xFF ∨
        (sensors.getD (s.channel - 1) default).id = s.id) →
      (main_proc_reading sensors syst s true).1 = sensors.set (s.channel - 1) s ∧
      ((main_proc_reading sensors syst s true).1.getD (s.channel - 1) default).id
        = s.id) ∧
    (∀ sensors (syst : TSystem) (s : TSensor),
      1 ≤ s.channel → s.channel ≤ SENSOR_CHANNELS →
      (sensors.getD (s.channel - 1) default).id ≠ 0xFF →
      (sensors.getD (s.channel - 1) default).id ≠ s.id →
      (main_proc_reading sensors syst s true).1 = sensors) ∧
    (∀ sensors (c : ℕ), 1 ≤ c → c ≤ SENSOR_CHANNELS → ∀ j, j < sensors.length →
      (main_sync sensors c).getD j default =
        (if j = c - 1 then { sensors.getD j default with id := 0xFF }
         else sensors.getD j default)) ∧
    (∀ sensors : List TSensor, ∀ j, j < sensors.length →
      (main_sync sensors 0).getD j default =
        { sensors.getD j default with id := 0xFF }) := by
  refine ⟨?_, ?_, ?_, ?_⟩
  · intro sensors syst s hlen h1 h3 hid
    have hcond : 0 < s.channel ∧ s.channel ≤ SENSOR_CHANNELS := ⟨h1, h3⟩
    have hix : s.channel - 1 < sensors.length := by
      rw [hlen, SENSOR_CHANNELS] at *
      omega
    simp only [List.getD_eq_getElem?_getD] at hid
    constructor
    · simp [main_proc_reading, hcond, hid]
    · simp [main_proc_reading, hcond, hid, List.getD_eq_getElem?_getD,
        List.getElem?_set_self hix]
  · intro sensors syst s h1 h3 hne1 hne2
    have hcond : 0 < s.channel ∧ s.channel ≤ SENSOR_CHANNELS := ⟨h1, h3⟩
    simp only [List.getD_eq_getElem?_getD] at hne1 hne2
    simp [main_proc_reading, hcond, hne1, hne2]
  · intro sensors c h1 h3 j hj
    have hc0 : c ≠ 0 := by omega
    by_cases hjc : j = c - 1
    · subst hjc
      simp [main_sync, hc0, List.getD_eq_getElem?_getD, List.getElem?_set_self hj]
    · simp [main_sync, hc0, List.getD_eq_getElem?_getD,
        List.getElem?_set_ne (by omega : c - 1 ≠ j), hjc]
  · intro sensors j hj
    simp [main_sync, List.getD_eq_getElem?_getD, List.getElem?_map,
      (List.getElem?_eq_getElem hj)]

/-- Witness for C7: an unlocked slot adopts a reading (identity 9, channel 2),
a slot locked to identity 5 rejects it, and resync on channel 2 unlocks the
slot while keeping its stored fields. -/
theorem C7_witness :
    (main_proc_reading slotsFF syst0 sensReading true).1 =
      slotsFF.set 1 sensReading ∧
    ((main_proc_reading slotsFF syst0 sensReading true).1.getD 1 default).id = 9 ∧
    (main_proc_reading slotsMix syst0 sensReading true).1 = slotsMix ∧
    (main_sync slotsMix 2).getD 1 default = { sensLocked5 with id := 0xFF } := by
  obtain ⟨hset, hadopt⟩ := C7_identity_locking.1 slotsFF syst0 sensReading
    (by decide) (by decide) (by decide) (Or.inl (by decide))
  have hrej := C7_identity_locking.2.1 slotsMix syst0 sensReading
    (by decide) (by decide) (by decide) (by decide)
  have hsync := C7_identity_locking.2.2.1 slotsMix 2 (by decide) (by decide) 1
    (by decide)
  exact ⟨hset, hadopt, hrej, by simpa using hsync⟩

/-- C10: `tfa_parse` computes the channel as 1 plus a 2-bit field, so the
channel is always in 1..4 and can be 4 even with a valid type tag; the accept
path still increments the accepted-packet counter for such a reading but
mutates no channel slot, and the `sensors[channel-1]` slot access happens only
under the guard `1 ≤ channel ≤ 3`, whose index is always in bounds. -/
theorem C10_channel4_reading_safe :
    (∀ p : List ℕ, 1 ≤ (tfa_parse_bytes p).1.channel ∧
      (tfa_parse_bytes p).1.channel ≤ 4) ∧
    ((tfa_parse_bytes [0, 0, 48, 0, 9]).2 = true ∧
      (tfa_parse_bytes [0, 0, 48, 0, 9]).1.channel = 4) ∧
    (∀ sensors (syst : TSystem) (s : TSensor), s.channel = 4 →
      (main_proc_reading sensors syst s true).1 = sensors ∧
      (main_proc_reading sensors syst s true).2.packets =
        (syst.packets + 1) % 65536) ∧
    (∀ c : ℕ, 1 ≤ c → c ≤ SENSOR_CHANNELS → c - 1 < SENSOR_CHANNELS) := by
  refine ⟨?_, ⟨by decide, by decide⟩, ?_, ?_⟩
  · intro p
    have hle : (p.getD 2 0 >>> 4) &&& 0x03 ≤ 3 := Nat.and_le_right
    constructor
    · simp [tfa_parse_bytes]
    · simp only [tfa_parse_bytes]
      omega
  · intro sensors syst s hch
    have hcond : ¬ (0 < s.channel ∧ s.channel ≤ SENSOR_CHANNELS) := by
      rw [hch, SENSOR_CHANNELS]
      omega
    exact ⟨by simp [main_proc_reading, hcond], by simp [main_proc_reading]⟩
  · intro c h1 h3
    rw [SENSOR_CHANNELS] at *
    omega

/-- Witness for C10: the concrete channel-4 valid-type reading leaves all
slots untouched while the counter increments, and index bounds at channel 3. -/
theorem C10_witness :
    (main_proc_reading slotsFF syst0 sensChan4 true).1 = slotsFF ∧
    (main_proc_reading slotsFF syst0 sensChan4 true).2.packets = 1 ∧
    (3 : ℕ) - 1 < SENSOR_CHANNELS := by
  obtain ⟨hslots, hcnt⟩ := C10_channel4_reading_safe.2.2.1 slotsFF syst0 sensChan4
    (by decide)
  exact ⟨hslots, by simpa [syst0] using hcnt,
    C10_channel4_reading_safe.2.2.2 3 (by decide) (by decide)⟩

/-- C1 is contradicted by the code: on a capture set with two byte-equality
groups of equal maximal size (3 of `capA` and 3 of `capB` out of 6 valid
captures), `tfa_proc_packets` still returns 1, overwrites `tfa->packet` with
`capA` and sets `TFA_NEW_PACKET` — the `maxv[0]==maxv[1]` tie check (tfa.c
line 214) does not fire because `maxv[1]` only ever holds the value `maxv[0]`
had before its last strict increase.  (Only the zero-capture degenerate case
of the claim behaves as stated, see the last conjunct.) -/
theorem C1_tie_not_rejected :
    ((List.range 6).filter (fun i => ttfaTie.data.getD i [] = capA)).length = 3 ∧
    ((List.range 6).filter (fun i => ttfaTie.data.getD i [] = capB)).length = 3 ∧
    (tfa_proc_packets ttfaTie).1 = 1 ∧
    (tfa_proc_packets ttfaTie).2.packet = capA ∧
    (tfa_proc_packets ttfaTie).2.flags &&& TFA_NEW_PACKET ≠ 0 ∧
    (tfa_proc_packets { ttfaTie with packets := 0 }).1 = 0 ∧
    (tfa_proc_packets { ttfaTie with packets := 0 }).2.packet = ttfaTie.packet := by
  refine ⟨?_, ?_, ?_, ?_, ?_, ?_, ?_⟩ <;> decide

theorem c3_enum_p0 : checkPow c3body 10 0 = true := by decide!

theorem c3_enum_p1 : checkPow c3body 10 1 = true := by decide!

theorem c3_enum_p2 : checkPow c3body 10 2 = true := by decide!

theorem c3_enum_p3 : checkPow c3body 10 3 = true := by decide!

theorem c3_enum_p4 : checkPow c3body 10 4 = true := by decide!

theorem c3_enum_p5 : checkPow c3body 10 5 = true := by decide!

theorem c3_enum_p6 : checkPow c3body 10 6 = true := by decide!

theorem c3_enum_p7 : checkPow c3body 10 7 = true := by decide!

theorem c3_enum_p8 : checkPow c3body 10 8 = true := by decide!

theorem c3_enum_p9 : checkPow c3body 10 9 = true := by decide!

theorem c3_enum_p10 : checkPow c3body 10 10 = true := by decide!

theorem c3_enum_p11 : checkPow c3body 10 11 = true := by decide!

theorem c3_enum_p12 : checkPow c3body 10 12 = true := by decide!

theorem c3_enum_p13 : checkPow c3body 10 13 = true := by decide!

theorem c3_enum_p14 : checkPow c3body 10 14 = true := by decide!

theorem c3_enum_p15 : checkPow c3body 10 15 = true := by decide!

theorem checkPow_succ (f : ℕ → Bool) (d lo : ℕ) :
    checkPow f (d+1) lo = (checkPow f d (2*lo) && checkPow f d (2*lo+1)) :=
  rfl

theorem c3_enum : ∀ code, code < 2 ^ 14 → c3body code = true :=
  checkPow_ball c3body 14 (by
    have e14 : checkPow c3body 14 0 =
        (checkPow c3body 13 0 && checkPow c3body 13 1) := by
      have h := checkPow_succ c3body 13 0; norm_num at h; exact h
    have e13_0 : checkPow c3body 13 0 =
        (checkPow c3body 12 0 && checkPow c3body 12 1) := by
      have h := checkPow_succ c3body 12 0; norm_num at h; exact h
    have e13_1 : checkPow c3body 13 1 =
        (checkPow c3body 12 2 && checkPow c3body 12 3) := by
      have h := checkPow_succ c3body 12 1; norm_num at h; exact h
    have e12_0 : checkPow c3body 12 0 =
        (checkPow c3body 11 0 && checkPow c3body 11 1) := by
      have h := checkPow_succ c3body 11 0; norm_num at h; exact h
    have e12_1 : checkPow c3body 12 1 =
        (checkPow c3body 11 2 && checkPow c3body 11 3) := by
      have h := checkPow_succ c3body 11 1; norm_num at h; exact h
    have e12_2 : checkPow c3body 12 2 =
        (checkPow c3body 11 4 && checkPow c3body 11 5) := by
      have h := checkPow_succ c3body 11 2; norm_num at h; exact h
    have e12_3 : checkPow c3body 12 3 =
        (checkPow c3body 11 6 && checkPow c3body 11 7) := by
      have h := checkPow_succ c3body 11 3; norm_num at h; exact h
    have e11_0 : checkPow c3body 11 0 =
        (checkPow c3body 10 0 && checkPow c3body 10 1) := by
      have h := checkPow_succ c3body 10 0; norm_num at h; exact h
    have e11_1 : checkPow c3body 11 1 =
        (checkPow c3body 10 2 && checkPow c3body 10 3) := by
      have h := checkPow_succ c3body 10 1; norm_num at h; exact h
    have e11_2 : checkPow c3body 11 2 =
        (checkPow c3body 10 4 && checkPow c3body 10 5) := by
      have h := checkPow_succ c3body 10 2; norm_num at h; exact h
    have e11_3 : checkPow c3body 11 3 =
        (checkPow c3body 10 6 && checkPow c3body 10 7) := by
      have h := checkPow_succ c3body 10 3; norm_num at h; exact h
    have e11_4 : checkPow c3body 11 4 =
        (checkPow c3body 10 8 && checkPow c3body 10 9) := by
      have h := checkPow_succ c3body 10 4; norm_num at h; exact h
    have e11_5 : checkPow c3body 11 5 =
        (checkPow c3body 10 10 && checkPow c3body 10 11) := by
      have h := checkPow_succ c3body 10 5; norm_num at h; exact h
    have e11_6 : checkPow c3body 11 6 =
        (checkPow c3body 10 12 && checkPow c3body 10 13) := by
      have h := checkPow_succ c3body 10 6; norm_num at h; exact h
    have e11_7 : checkPow c3body 11 7 =
        (checkPow c3body 10 14 && checkPow c3body 10 15) := by
      have h := checkPow_succ c3body 10 7; norm_num at h; exact h
    rw [e14, e13_0, e13_1, e12_0, e12_1, e12_2, e12_3, e11_0, e11_1, e11_2,
      e11_3, e11_4, e11_5, e11_6, e11_7, c3_enum_p0, c3_enum_p1, c3_enum_p2,
      c3_enum_p3, c3_enum_p4, c3_enum_p5, c3_enum_p6, c3_enum_p7, c3_enum_p8,
      c3_enum_p9, c3_enum_p10, c3_enum_p11, c3_enum_p12, c3_enum_p13,
      c3_enum_p14, c3_enum_p15]
    rfl)

theorem getN_eq_getD (l : List ℕ) : ∀ n, getN l n = l.getD n 0 := by
  induction l with
  | nil => intro n; simp [getN]
  | cons a as ih =>
    intro n
    cases n with
    | zero => simp [getN]
    | succ n => simpa [getN] using ih n

theorem c3count_eq_countP (v : ℕ) (l : List ℕ) :
    c3count v l = l.countP (fun a => a == v) := by
  induction l with
  | nil => simp [c3count]
  | cons a as ih =>
    cases h : (a == v)
    all_goals simp [c3count, List.countP_cons, h, ih]
    all_goals omega

theorem proc_inner_congr (beq beq' : ℕ → ℕ → Bool) (m n : ℕ) (st : ProcScan)
    (h : beq m n = beq' m n) : proc_inner beq m st n = proc_inner beq' m st n := by
  obtain ⟨counts, a0, a1, aid⟩ := st
  simp only [proc_inner, h]

theorem inner_loop_congr (beq beq' : ℕ → ℕ → Bool) (m : ℕ)
    (h : ∀ n, n < 7 → beq m n = beq' m n) :
    ∀ fuel st n, n + fuel ≤ 7 →
      inner_loop beq m st n fuel = inner_loop beq' m st n fuel := by
  intro fuel
  induction fuel with
  | zero => intro st n _; rfl
  | succ fuel ih =>
    intro st n hn
    simp only [inner_loop]
    rw [proc_inner_congr _ _ _ _ _ (h n (by omega)), ih _ _ (by omega)]

theorem proc_outer_congr (beq beq' : ℕ → ℕ → Bool) (m : ℕ) (st : ProcScan)
    (h : ∀ n, n < 7 → beq m n = beq' m n) :
    proc_outer beq 7 st m = proc_outer beq' 7 st m := by
  simp only [proc_outer]
  rw [inner_loop_congr beq beq' m h 7 st 0 (by omega)]

theorem outer_loop_congr (beq beq' : ℕ → ℕ → Bool)
    (h : ∀ m n, m < 7 → n < 7 → beq m n = beq' m n) :
    ∀ fuel st m, m + fuel ≤ 7 →
      outer_loop beq 7 st m fuel = outer_loop beq' 7 st m fuel := by
  intro fuel
  induction fuel with
  | zero => intro st m _; rfl
  | succ fuel ih =>
    intro st m hm
    simp only [outer_loop]
    rw [proc_outer_congr beq beq' m st (fun n hn => h m n (by omega) hn),
      ih _ _ (by omega)]

theorem proc_scan_congr (beq beq' : ℕ → ℕ → Bool)
    (h : ∀ m n, m < 7 → n < 7 → beq m n = beq' m n) :
    proc_scan beq 7 = proc_scan beq' 7 := by
  simp only [proc_scan]
  exact outer_loop_congr beq beq' h 7 _ 0 (by omega)

theorem c3prop_check (L : List ℕ) (h : c3prop L = true) :
    ∀ v, v < 7 → c3check L v = true := by
  simp only [c3prop, Bool.and_eq_true] at h
  intro v hv
  interval_cases v <;> tauto

theorem c3check_spec (L : List ℕ) (v : ℕ) (h : c3check L v = true)
    (hc : 4 ≤ c3count v L) :
    (proc_scan (fun m n => getN L m == getN L n) 7).maxv0 ≠
      (proc_scan (fun m n => getN L m == getN L n) 7).maxv1 ∧
    (proc_scan (fun m n => getN L m == getN L n) 7).maxid < 7 ∧
    getN L (proc_scan (fun m n => getN L m == getN L n) 7).maxid = v := by
  rcases hscan : proc_scan (fun m n => getN L m == getN L n) 7 with ⟨cs, a0, a1, aid⟩
  rw [c3check, hscan, decide_eq_true hc] at h
  simp only [cond_true, Bool.and_eq_true, bne_iff_ne, decide_eq_true_eq,
    beq_iff_eq] at h
  exact ⟨h.1.1, h.1.2, h.2⟩

theorem or_two_and_two (x : ℕ) : (x ||| 2) &&& 2 = 2 := by
  have h2 : (2:ℕ) = 2^1 := rfl
  rw [h2, Nat.and_two_pow]
  have hbit : Nat.testBit (x ||| 2^1) 1 = true := by
    rw [Nat.testBit_or]
    have hself : Nat.testBit (2^1) 1 = true := Nat.testBit_two_pow_self
    rw [hself, Bool.or_true]
  rw [hbit]
  rfl

/-- C3: for every capture set of 7 captures in which at least 4 are
byte-identical (and the rest, being outside that byte-equality group, differ
from it), `tfa_proc_packets` returns 1, copies the bytes of the ≥4-identical
group into `tfa->packet`, and sets `TFA_NEW_PACKET` — for every ordering of
the captures within the set. -/
theorem C3_majority_vote_selected (tfa : TTFA) (c : List ℕ)
    (hflag : tfa.flags &&& TFA_NEW_PACKETS ≠ 0)
    (hpk : tfa.packets = 7)
    (hmaj : 4 ≤ ((List.range 7).filter
      (fun i => tfa.data.getD i [] = c)).length) :
    (tfa_proc_packets tfa).1 = 1 ∧
    (tfa_proc_packets tfa).2.packet = c ∧
    (tfa_proc_packets tfa).2.flags &&& TFA_NEW_PACKET ≠ 0 := by
  classical
  have hex : ∀ i : ℕ, ∃ j, tfa.data.getD j [] = tfa.data.getD i [] :=
    fun i => ⟨i, rfl⟩
  set lab : ℕ → ℕ := fun i => Nat.find (hex i) with hlabdef
  have hlab_le : ∀ i, lab i ≤ i := fun i => Nat.find_min' (hex i) rfl
  have hlab_eq : ∀ i, tfa.data.getD (lab i) [] = tfa.data.getD i [] :=
    fun i => Nat.find_spec (hex i)
  have hlab_iff : ∀ m n, lab m = lab n ↔
      tfa.data.getD m [] = tfa.data.getD n [] := by
    intro m n
    constructor
    · intro h
      have hm := hlab_eq m
      rw [h] at hm
      rw [← hm, hlab_eq n]
    · intro h
      apply le_antisymm
      · exact Nat.find_min' (hex m) (by rw [hlab_eq n]; exact h.symm)
      · exact Nat.find_min' (hex n) (by rw [hlab_eq m]; exact h)
  -- a representative of the majority group
  have hne : ((List.range 7).filter (fun i => tfa.data.getD i [] = c)) ≠ [] := by
    intro hnil
    rw [hnil] at hmaj
    simp at hmaj
  obtain ⟨i₀, hi₀mem⟩ := List.exists_mem_of_ne_nil _ hne
  have hi₀f := List.mem_filter.mp hi₀mem
  have hi₀7 : i₀ < 7 := List.mem_range.mp hi₀f.1
  have hi₀c : tfa.data.getD i₀ [] = c := by simpa using hi₀f.2
  have hv7 : lab i₀ < 7 := lt_of_le_of_lt (hlab_le i₀) hi₀7
  -- bounds on the labels
  have hb1 : lab 1 ≤ 1 := hlab_le 1
  have hb2 : lab 2 ≤ 2 := hlab_le 2
  have hb3 : lab 3 ≤ 3 := hlab_le 3
  have hb4 : lab 4 ≤ 4 := hlab_le 4
  have hb5 : lab 5 ≤ 5 := hlab_le 5
  have hb6 : lab 6 ≤ 6 := hlab_le 6
  have hlab0 : lab 0 = 0 := Nat.le_zero.mp (hlab_le 0)
  -- instantiate the enumerated fact at the code of this labelling
  set code : ℕ := lab 1 + 2 * lab 2 + 8 * lab 3 + 32 * lab 4 + 256 * lab 5 +
    2048 * lab 6 with hcodedef
  have hb := c3_enum code (by
    have h16 : (2:ℕ)^14 = 16384 := by norm_num
    rw [h16]
    omega)
  have hdec1 : code % 2 = lab 1 := by omega
  have hdec2 : code / 2 % 4 = lab 2 := by omega
  have hdec3 : code / 8 % 4 = lab 3 := by omega
  have hdec4 : code / 32 % 8 = lab 4 := by omega
  have hdec5 : code / 256 % 8 = lab 5 := by omega
  have hdec6 : code / 2048 % 8 = lab 6 := by omega
  rw [c3body, hdec1, hdec2, hdec3, hdec4, hdec5, hdec6,
    if_pos ⟨hb2, hb4, hb5, hb6⟩, ← hlab0] at hb
  set L : List ℕ := [lab 0, lab 1, lab 2, lab 3, lab 4, lab 5, lab 6] with hL
  have hgetL : ∀ k, k < 7 → getN L k = lab k := by
    intro k hk
    interval_cases k <;> rfl
  -- the canonicity filter passes
  have hself : ∀ i, lab (lab i) = lab i :=
    fun i => (hlab_iff (lab i) i).mpr (hlab_eq i)
  have hcanon1 : getN L (getN L 1) = getN L 1 := by
    rw [hgetL 1 (by omega), hgetL (lab 1) (by omega)]
    exact hself 1
  have hcanon2 : getN L (getN L 2) = getN L 2 := by
    rw [hgetL 2 (by omega), hgetL (lab 2) (by omega)]
    exact hself 2
  have hcanon3 : getN L (getN L 3) = getN L 3 := by
    rw [hgetL 3 (by omega), hgetL (lab 3) (by omega)]
    exact hself 3
  have hcanon4 : getN L (getN L 4) = getN L 4 := by
    rw [hgetL 4 (by omega), hgetL (lab 4) (by omega)]
    exact hself 4
  have hcanon5 : getN L (getN L 5) = getN L 5 := by
    rw [hgetL 5 (by omega), hgetL (lab 5) (by omega)]
    exact hself 5
  have hcanon6 : getN L (getN L 6) = getN L 6 := by
    rw [hgetL 6 (by omega), hgetL (lab 6) (by omega)]
    exact hself 6
  have hcanon : c3canon L = true := by
    simp [c3canon, hcanon1, hcanon2, hcanon3, hcanon4, hcanon5, hcanon6]
  rw [hcanon, cond_true] at hb
  -- the majority count transfers to the labels
  have hrange7 : List.range 7 = [0, 1, 2, 3, 4, 5, 6] := rfl
  have hLmap : L = (List.range 7).map lab := by
    rw [hrange7, hL]
    simp
  have hcount : 4 ≤ c3count (lab i₀) L := by
    rw [c3count_eq_countP, hLmap, List.countP_map]
    have hcongr : ∀ i ∈ List.range 7,
        ((fun a => a == lab i₀) ∘ lab) i = true ↔
          (fun i => decide (tfa.data.getD i [] = c)) i = true := by
      intro i _
      simp only [Function.comp, beq_iff_eq, decide_eq_true_eq]
      rw [hlab_iff i i₀, hi₀c]
    rw [List.countP_congr hcongr, List.countP_eq_length_filter]
    exact hmaj
  have hcheck := c3prop_check L hb (lab i₀) hv7
  have hspec := c3check_spec L (lab i₀) hcheck hcount
  clear_value lab code L
  -- the label scan agrees with the byte scan
  have hbeq : ∀ m n, m < 7 → n < 7 →
      (tfa.data.getD m [] == tfa.data.getD n []) = (getN L m == getN L n) := by
    intro m n hm hn
    rw [hgetL m hm, hgetL n hn]
    by_cases hd : tfa.data.getD m [] = tfa.data.getD n []
    · rw [hd, (hlab_iff m n).mpr hd]
      simp
    · have hnel : lab m ≠ lab n := fun hcon => hd ((hlab_iff m n).mp hcon)
      have h1 : (tfa.data.getD m [] == tfa.data.getD n []) = false := by
        simpa using hd
      have h2 : (lab m == lab n) = false := by
        simpa using hnel
      rw [h1, h2]
  have hscan_eq :
      proc_scan (fun m n => tfa.data.getD m [] == tfa.data.getD n []) 7 =
        proc_scan (fun m n => getN L m == getN L n) 7 :=
    proc_scan_congr _ _ hbeq
  -- assemble the result
  have hmaxid :
      tfa.data.getD
        ((proc_scan (fun m n => getN L m == getN L n) 7).maxid) [] = c := by
    have h1 : lab ((proc_scan (fun m n => getN L m == getN L n) 7).maxid) =
        lab i₀ := by
      rw [← hgetL _ hspec.2.1]
      exact hspec.2.2
    rw [(hlab_iff _ i₀).mp h1, hi₀c]
  simp only [tfa_proc_packets]
  rw [if_neg hflag, hpk, hscan_eq, if_neg hspec.1]
  refine ⟨rfl, hmaxid, ?_⟩
  simp only [TFA_NEW_PACKET]
  rw [or_two_and_two]
  norm_num

/-- Witness for C5 at the concrete glitch duration 2 ticks. -/
theorem C5_witness : classify 2 = PulseKind.glitch :=
  (C5_classifier_priority_chain.1 2).mpr (by rw [is_glitch_iff]; omega)

/-- Witness for C8 at the all-zero packet. -/
theorem C8_witness : (tfa_parse_bytes [0, 0, 0, 0, 0]).1.temp = 0 := by
  have h := C8_temperature_sign_extension.1 [0, 0, 0, 0, 0]
  simpa using h

/-- Witness for C3 at a concrete 7-capture set with 4 copies of `capA` at
slots 1, 2, 4, 6 and three other distinct captures. -/
theorem C3_witness :
    (tfa_proc_packets ttfaMaj).1 = 1 ∧
    (tfa_proc_packets ttfaMaj).2.packet = capA := by
  obtain ⟨h1, h2, -⟩ := C3_majority_vote_selected ttfaMaj capA (by decide) rfl
    (by decide)
  exact ⟨h1, h2⟩

theorem writeDataBit_length (cap : List ℕ) (pos : ℕ) (b : Bool) :
    (writeDataBit cap pos b).length = cap.length := by
  simp [writeDataBit]

theorem writeDataBit_lt (cap : List ℕ) (pos : ℕ) (b : Bool)
    (h : ∀ x ∈ cap, x < 256) : ∀ x ∈ writeDataBit cap pos b, x < 256 := by
  have h256 : (2:ℕ)^8 = 256 := by norm_num
  have hmask : (1 <<< (pos &&& 0x07)) < 2^8 := by
    rw [Nat.shiftLeft_eq, one_mul]
    have hle : pos &&& 7 ≤ 7 := Nat.and_le_right
    calc 2 ^ (pos &&& 7) ≤ 2 ^ 7 := Nat.pow_le_pow_right (by omega) hle
      _ < 2^8 := by norm_num
  have hb1 : ∀ b0 : ℕ, b0 &&& (255 ^^^ (1 <<< (pos &&& 0x07))) < 2^8 :=
    fun b0 => Nat.and_lt_two_pow b0 (Nat.xor_lt_two_pow (by norm_num) hmask)
  intro x hx
  rcases List.mem_or_eq_of_mem_set hx with hmem | heq
  · exact h x hmem
  · subst heq
    cases b
    · simpa [h256] using hb1 _
    · simpa [h256] using Nat.or_lt_two_pow (hb1 _) hmask

theorem testBit_255 (k : ℕ) (hk : k < 8) : Nat.testBit 255 k = true := by
  have h := Nat.testBit_two_pow_sub_one 8 k
  norm_num at h
  simp [h, hk]

theorem writeDataBit_testBit (cap : List ℕ) (pos : ℕ) (b : Bool)
    (hlen : cap.length = 5) :
    ∀ j, j < 5 → ∀ k, k < 8 →
      ((writeDataBit cap pos b).getD j 0).testBit k =
        (if j = pos / 8 ∧ k = pos % 8 then b
         else ((cap.getD j 0).testBit k)) := by
  intro j hj k hk
  have hm7 : pos &&& 7 = pos % 8 := by
    have h7 : (7:ℕ) = 2^3 - 1 := rfl
    rw [h7, Nat.and_pow_two_sub_one_eq_mod]
  have hshift : pos >>> 3 = pos / 8 := by
    rw [Nat.shiftRight_eq_div_pow]
  have hmod8 : pos % 8 < 8 := Nat.mod_lt _ (by omega)
  simp only [writeDataBit, hm7, hshift, Nat.shiftLeft_eq, one_mul]
  by_cases hjb : j = pos / 8
  · subst hjb
    have hjlen : pos / 8 < cap.length := by omega
    rw [List.getD_eq_getElem?_getD, List.getElem?_set_self hjlen,
      Option.getD_some]
    by_cases hkm : k = pos % 8
    · subst hkm
      have hcond : (pos / 8 = pos / 8 ∧ pos % 8 = pos % 8) := ⟨rfl, rfl⟩
      simp only [hcond, if_true]
      cases b
      · simp only [Bool.false_eq_true, if_false]
        rw [Nat.testBit_and, Nat.testBit_xor,
          Nat.testBit_two_pow, testBit_255 _ hmod8]
        simp
      · rw [if_pos rfl, Nat.testBit_or, Nat.testBit_and, Nat.testBit_xor,
          Nat.testBit_two_pow, testBit_255 _ hmod8]
        simp
    · have hcond : ¬ (pos / 8 = pos / 8 ∧ k = pos % 8) := by tauto
      have hne : pos % 8 ≠ k := fun hcon => hkm hcon.symm
      simp only [hcond, if_false]
      rw [List.getD_eq_getElem?_getD]
      cases b
      · simp only [Bool.false_eq_true, if_false]
        rw [Nat.testBit_and, Nat.testBit_xor,
          Nat.testBit_two_pow, testBit_255 _ hk, decide_eq_false hne]
        simp [hkm, hne]
      · rw [if_pos rfl, Nat.testBit_or, Nat.testBit_and, Nat.testBit_xor,
          Nat.testBit_two_pow, testBit_255 _ hk, decide_eq_false hne]
        simp [hkm, hne]
  · have hne : pos / 8 ≠ j := fun hcon => hjb hcon.symm
    have hcond : ¬ (j = pos / 8 ∧ k = pos % 8) := by tauto
    simp only [hcond, if_false]
    rw [List.getD_eq_getElem?_getD, List.getElem?_set_ne hne,
      ← List.getD_eq_getElem?_getD]

theorem putBits_length (bs : List Bool) : ∀ (cap : List ℕ) (c : ℕ),
    (putBits cap bs c).length = cap.length := by
  induction bs with
  | nil => intro cap c; rfl
  | cons b rest ih =>
    intro cap c
    rw [putBits.eq_2, ih, writeDataBit_length]

theorem putBits_lt (bs : List Bool) : ∀ (cap : List ℕ) (c : ℕ),
    (∀ x ∈ cap, x < 256) → ∀ x ∈ putBits cap bs c, x < 256 := by
  induction bs with
  | nil => intro cap c h; exact h
  | cons b rest ih =>
    intro cap c h
    rw [putBits.eq_2]
    exact ih _ _ (writeDataBit_lt cap (c-1) b h)

theorem putBits_testBit (bs : List Bool) : ∀ (cap : List ℕ) (c : ℕ),
    cap.length = 5 → c = bs.length → c ≤ 40 →
    ∀ j, j < 5 → ∀ k, k < 8 →
      ((putBits cap bs c).getD j 0).testBit k =
        (if 8*j+k < c then bs.getD (c - 1 - (8*j+k)) false
         else ((cap.getD j 0).testBit k)) := by
  induction bs with
  | nil =>
    intro cap c hlen hc hc40 j hj k hk
    subst hc
    simp [putBits]
  | cons b rest ih =>
    intro cap c hlen hc hc40 j hj k hk
    have hcpos : c = rest.length + 1 := by
      rw [hc]
      rfl
    rw [putBits.eq_2]
    have hih := ih (writeDataBit cap (c-1) b) (c-1)
      (by rw [writeDataBit_length, hlen]) (by omega) (by omega) j hj k hk
    rw [hih]
    have hw := writeDataBit_testBit cap (c-1) b hlen j hj k hk
    by_cases h1 : 8*j+k < c - 1
    · have h2 : 8*j+k < c := by omega
      simp only [h1, if_true, h2]
      have h5 : c - 1 - (8*j+k) = ((c - 1) - 1 - (8*j+k)) + 1 := by omega
      rw [h5, List.getD_cons_succ]
    · by_cases h2 : 8*j+k = c - 1
      · have h3 : 8*j+k < c := by omega
        simp only [h1, if_false, h3, if_true]
        rw [hw]
        have hj8 : j = (c-1) / 8 ∧ k = (c-1) % 8 := by
          constructor <;> omega
        rw [if_pos hj8]
        have h4 : c - 1 - (8*j+k) = 0 := by omega
        rw [h4, List.getD_cons_zero]
      · have h3 : ¬ (8*j+k < c) := by omega
        simp only [h1, if_false, h3]
        rw [hw]
        have h4 : ¬ (j = (c-1) / 8 ∧ k = (c-1) % 8) := by
          intro hcon
          apply h2
          omega
        simp only [h4, if_false]

theorem rise_data (b : Bool) (s : FrameState) (tfa : TTFA) :
    tfa_rise (dataPulse b) s tfa =
      (if 0 < s.bit ∧ s.packet < TFA_PACKETS then
        { s with bit := s.bit - 1,
                 buf := s.buf.set s.packet
                   (writeDataBit (s.buf.getD s.packet []) (s.bit - 1).toNat b) }
       else if 0 ≤ s.bit then { s with bit := s.bit - 1 } else s, tfa) := by
  cases b
  · have h1 : ¬ TFA_IS_GLITCH 36 := by rw [is_glitch_iff]; omega
    have h2 : ¬ TFA_IS_STOP 36 := by rw [is_stop_iff]; omega
    have h3 : ¬ TFA_IS_GAP 36 := by rw [is_gap_iff]; omega
    have h4 : ¬ TFA_IS_START 36 := by rw [is_start_iff]; omega
    have h5 : ¬ TFA_IS_HIGH 36 := by rw [is_high_iff]; omega
    simp [tfa_rise, dataPulse, h1, h2, h3, h4, h5]
  · have h1 : ¬ TFA_IS_GLITCH 72 := by rw [is_glitch_iff]; omega
    have h2 : ¬ TFA_IS_STOP 72 := by rw [is_stop_iff]; omega
    have h3 : ¬ TFA_IS_GAP 72 := by rw [is_gap_iff]; omega
    have h4 : ¬ TFA_IS_START 72 := by rw [is_start_iff]; omega
    have h5 : TFA_IS_HIGH 72 := by rw [is_high_iff]; omega
    simp [tfa_rise, dataPulse, h1, h2, h3, h4, h5]

theorem rise_start (s : FrameState) (tfa : TTFA) (hp : s.packet < TFA_PACKETS) :
    tfa_rise startPulse s tfa =
      ({ s with bit := 36,
                buf := s.buf.set s.packet ((s.buf.getD s.packet []).set 4 0) },
       tfa) := by
  have h1 : ¬ TFA_IS_GLITCH 160 := by rw [is_glitch_iff]; omega
  have h2 : ¬ TFA_IS_STOP 160 := by rw [is_stop_iff]; omega
  have h3 : ¬ TFA_IS_GAP 160 := by rw [is_gap_iff]; omega
  have h4 : TFA_IS_START 160 := by rw [is_start_iff]; omega
  simp [tfa_rise, startPulse, h1, h2, h3, h4, hp, TFA_BITS, TFA_BUF_BYTES]

theorem rise_stop (s : FrameState) (tfa : TTFA) :
    tfa_rise stopPulse s tfa =
      (if s.bit = 0 then
        { s with bit := s.bit - 1,
                 packet := (if s.packet < TFA_PACKETS + 1 then s.packet + 1
                            else s.packet) }
       else s, tfa) := by
  have h1 : ¬ TFA_IS_GLITCH 10 := by rw [is_glitch_iff]; omega
  have h2 : TFA_IS_STOP 10 := by rw [is_stop_iff]; omega
  simp [tfa_rise, stopPulse, h1, h2]

theorem set_getD_self {α : Type} (l : List α) (p : ℕ) (d : α)
    (hp : p < l.length) : l.set p (l.getD p d) = l := by
  apply List.ext_getElem?
  intro i
  by_cases hip : p = i
  · subst hip
    rw [List.getElem?_set_self hp, List.getD_eq_getElem?_getD,
      List.getElem?_eq_getElem hp]
    rfl
  · rw [List.getElem?_set_ne hip]

theorem run_data_phase (bs : List Bool) : ∀ (s : FrameState) (tfa : TTFA),
    s.buf.length = 7 → s.packet < 7 → s.bit = (bs.length : ℤ) →
    tfa_run (bs.map dataPulse) s tfa =
      ({ s with bit := 0,
                buf := s.buf.set s.packet
                  (putBits (s.buf.getD s.packet []) bs bs.length) }, tfa) := by
  induction bs with
  | nil =>
    intro s tfa hlen hp hbit
    have hbit0 : s.bit = 0 := by
      rw [hbit]
      rfl
    simp only [List.map_nil, tfa_run, List.foldl_nil, List.length_nil, putBits]
    rw [set_getD_self s.buf s.packet [] (by omega)]
    rw [← hbit0]
  | cons b rest ih =>
    intro s tfa hlen hp hbit
    have hblen : s.bit = (rest.length : ℤ) + 1 := by
      rw [hbit]
      simp
    simp only [List.map_cons, tfa_run, List.foldl_cons]
    rw [rise_data, if_pos ⟨by omega, hp⟩]
    have htn : (s.bit - 1).toNat = rest.length := by omega
    have hrun := ih
      { s with
        bit := s.bit - 1,
        buf := s.buf.set s.packet
          (writeDataBit (s.buf.getD s.packet []) (s.bit - 1).toNat b) } tfa
      (by simpa using hlen) hp (by show s.bit - 1 = (rest.length : ℤ); omega)
    simp only [tfa_run] at hrun
    rw [hrun]
    have hgd : (s.buf.set s.packet
        (writeDataBit (s.buf.getD s.packet []) (s.bit - 1).toNat b)).getD
          s.packet [] =
        writeDataBit (s.buf.getD s.packet []) (s.bit - 1).toNat b := by
      rw [List.getD_eq_getElem?_getD, List.getElem?_set_self (by omega)]
      rfl
    simp only [hgd, List.set_set, htn]
    have hput : putBits (s.buf.getD s.packet []) (b :: rest)
        (b :: rest).length =
        putBits (writeDataBit (s.buf.getD s.packet []) rest.length b) rest
          rest.length := by
      rw [putBits.eq_2]
      simp
    rw [hput]
    have hgd3 : (s.buf.set s.packet
        (writeDataBit (s.buf.getD s.packet []) rest.length b)).getD
          s.packet [] =
        writeDataBit (s.buf.getD s.packet []) rest.length b := by
      rw [List.getD_eq_getElem?_getD, List.getElem?_set_self (by omega)]
      rfl
    rw [hgd3]

theorem frame_capture (bs : List Bool) (s : FrameState) (tfa : TTFA)
    (hlen : s.buf.length = 7) (hp : s.packet < TFA_PACKETS)
    (hbs : bs.length = 36) :
    tfa_run (startPulse :: (bs.map dataPulse ++ [stopPulse])) s tfa =
      ({ s with bit := -1, packet := s.packet + 1,
                buf := s.buf.set s.packet
                  (putBits ((s.buf.getD s.packet []).set 4 0) bs 36) }, tfa) := by
  have hp7 : s.packet < 7 := hp
  have hp8 : s.packet < 8 := by omega
  simp only [tfa_run, List.foldl_cons, List.foldl_append, List.foldl_nil]
  rw [rise_start s tfa hp]
  have hs1 := run_data_phase bs
    { s with bit := 36,
             buf := s.buf.set s.packet ((s.buf.getD s.packet []).set 4 0) } tfa
    (by simpa using hlen) hp7 (by rw [hbs]; rfl)
  simp only [tfa_run] at hs1
  rw [hs1]
  rw [rise_stop]
  have hgd2 : ((s.buf.set s.packet ((s.buf.getD s.packet []).set 4 0)).getD
      s.packet []) = (s.buf.getD s.packet []).set 4 0 := by
    rw [List.getD_eq_getElem?_getD, List.getElem?_set_self (by omega)]
    rfl
  simp only [hgd2, List.set_set, hbs]
  simp [TFA_PACKETS, hp8]

theorem and_4095_mod (x : ℕ) : x &&& 4095 = x % 4096 := by
  have h : (4095:ℕ) = 2^12 - 1 := rfl
  rw [h, Nat.and_pow_two_sub_one_eq_mod]

theorem and_3_mod (x : ℕ) : x &&& 3 = x % 4 := by
  have h : (3:ℕ) = 2^2 - 1 := rfl
  rw [h, Nat.and_pow_two_sub_one_eq_mod]

theorem and_15_mod (x : ℕ) : x &&& 15 = x % 16 := by
  have h : (15:ℕ) = 2^4 - 1 := rfl
  rw [h, Nat.and_pow_two_sub_one_eq_mod]

theorem and_255_mod (x : ℕ) : x &&& 255 = x % 256 := by
  have h : (255:ℕ) = 2^8 - 1 := rfl
  rw [h, Nat.and_pow_two_sub_one_eq_mod]

theorem shiftr4_div (x : ℕ) : x >>> 4 = x / 16 := by
  rw [Nat.shiftRight_eq_div_pow]

theorem and_192_eq (x : ℕ) (hx : x < 256) : x &&& 192 = x / 64 * 64 := by
  have h := checkPow_ball (fun x => decide (x &&& 192 = x / 64 * 64)) 8
    (by decide!) x (by simpa using hx)
  exact of_decide_eq_true h

theorem testBit_of_lt_256 (x k : ℕ) (hx : x < 256) (hk : 8 ≤ k) :
    x.testBit k = false := by
  apply Nat.testBit_lt_two_pow
  calc x < 256 := hx
    _ = 2^8 := by norm_num
    _ ≤ 2^k := Nat.pow_le_pow_right (by omega) hk

theorem testBit_of_lt_16 (x k : ℕ) (hx : x < 16) (hk : 4 ≤ k) :
    x.testBit k = false := by
  apply Nat.testBit_lt_two_pow
  calc x < 16 := hx
    _ = 2^4 := by norm_num
    _ ≤ 2^k := Nat.pow_le_pow_right (by omega) hk

theorem spec_layout_length (rh temp12 chn2 id4 type8 : ℕ) (sync batt : Bool) :
    (spec_layout_bytes rh temp12 chn2 sync batt id4 type8).length = 5 := rfl

theorem spec_layout_lt (rh temp12 chn2 id4 type8 : ℕ) (sync batt : Bool)
    (hrh : rh < 256) (ht : temp12 < 4096) (hc : chn2 < 4) (hid : id4 < 16)
    (hty : type8 < 256) :
    ∀ x ∈ spec_layout_bytes rh temp12 chn2 sync batt id4 type8, x < 256 := by
  intro x hx
  cases sync <;> cases batt <;>
    (simp [spec_layout_bytes] at hx;
     rcases hx with h | h | h | h | h <;> subst h <;> omega)

theorem spec_wire_bits_length (bytes : List ℕ) :
    (spec_wire_bits bytes).length = 36 := by
  simp [spec_wire_bits]

theorem spec_wire_bits_getD (bytes : List ℕ) (i : ℕ) (hi : i < 36) :
    (spec_wire_bits bytes).getD i false = capBit bytes (35 - i) := by
  rw [spec_wire_bits, List.getD_eq_getElem?_getD, List.getElem?_map]
  rw [List.getElem?_eq_getElem (by simpa using hi)]
  simp

/-- `putBits` over a full 36-bit frame reconstructs any 5-byte target whose
wire bits it was fed, provided the working capture starts with byte 4
cleared (high nibble zero) and all bytes in range. -/
theorem putBits_spec_bytes (cap : List ℕ) (hlen : cap.length = 5)
    (hwf : ∀ x ∈ cap, x < 256) (bs : List Bool) (hbs : bs.length = 36)
    (hcap4 : cap.getD 4 0 < 16)
    (P : List ℕ) (hP5 : P.length = 5) (hPlt : ∀ x ∈ P, x < 256)
    (hP4 : P.getD 4 0 < 16)
    (hbits : ∀ i, i < 36 → bs.getD i false = capBit P (35 - i)) :
    putBits cap bs 36 = P := by
  have hlenL : (putBits cap bs 36).length = 5 := by
    rw [putBits_length, hlen]
  apply List.ext_getElem (by rw [hlenL, hP5])
  intro j hj1 hj2
  have hj5 : j < 5 := by rw [hlenL] at hj1; exact hj1
  have hgd1 : (putBits cap bs 36).getD j 0 = (putBits cap bs 36)[j] := by
    rw [List.getD_eq_getElem?_getD, List.getElem?_eq_getElem hj1]
    simp
  have hgd2 : P.getD j 0 = P[j] := by
    rw [List.getD_eq_getElem?_getD, List.getElem?_eq_getElem hj2]
    simp
  rw [← hgd1, ← hgd2]
  apply Nat.eq_of_testBit_eq
  intro k
  by_cases hk : k < 8
  · rw [putBits_testBit _ _ _ hlen hbs.symm (by omega) j hj5 k hk]
    by_cases hjk : 8*j + k < 36
    · rw [if_pos hjk]
      rw [hbits (36 - 1 - (8*j+k)) (by omega)]
      have e0 : 35 - (36 - 1 - (8*j+k)) = 8*j + k := by omega
      rw [e0, capBit]
      have e1 : (8*j+k) / 8 = j := by omega
      have e2 : (8*j+k) % 8 = k := by omega
      rw [e1, e2]
    · rw [if_neg hjk]
      have hj4 : j = 4 := by omega
      have hk4 : 4 ≤ k := by omega
      subst hj4
      rw [testBit_of_lt_16 _ k hcap4 hk4, testBit_of_lt_16 _ k hP4 hk4]
  · have h1 : (putBits cap bs 36).getD j 0 < 256 := by
      rw [List.getD_eq_getElem?_getD, List.getElem?_eq_getElem hj1]
      simp only [Option.getD_some]
      exact putBits_lt _ _ _ hwf _ (List.getElem_mem _)
    have h2 : P.getD j 0 < 256 := by
      rw [List.getD_eq_getElem?_getD, List.getElem?_eq_getElem hj2]
      simp only [Option.getD_some]
      exact hPlt _ (List.getElem_mem _)
    rw [testBit_of_lt_256 _ k h1 (by omega),
      testBit_of_lt_256 _ k h2 (by omega)]

/-- Parsing the section-3 layout bytes recovers every encoded field. -/
theorem parse_layout (rh temp12 chn2 id4 type8 : ℕ) (sync batt : Bool)
    (hrh : rh < 256) (ht : temp12 < 4096) (hc : chn2 < 4) (hid : id4 < 16)
    (hty : type8 < 256) :
    (tfa_parse_bytes (spec_layout_bytes rh temp12 chn2 sync batt id4
        type8)).1.rh = rh ∧
    (tfa_parse_bytes (spec_layout_bytes rh temp12 chn2 sync batt id4
        type8)).1.channel = chn2 + 1 ∧
    (tfa_parse_bytes (spec_layout_bytes rh temp12 chn2 sync batt id4
        type8)).1.id = id4 ∧
    (tfa_parse_bytes (spec_layout_bytes rh temp12 chn2 sync batt id4
        type8)).1.type = type8 ∧
    (tfa_parse_bytes (spec_layout_bytes rh temp12 chn2 sync batt id4
        type8)).1.temp =
      ((if temp12 < 2048 then (temp12 : ℤ) else (temp12 : ℤ) - 4096 : ℤ) : ℚ)
        / 10 ∧
    (tfa_parse_bytes (spec_layout_bytes rh temp12 chn2 sync batt id4
        type8)).1.flags &&& TFA_SYNC = (if sync then TFA_SYNC else 0) ∧
    (tfa_parse_bytes (spec_layout_bytes rh temp12 chn2 sync batt id4
        type8)).1.flags &&& TFA_LOW_BATT = (if batt then TFA_LOW_BATT else 0) ∧
    (tfa_parse_bytes (spec_layout_bytes rh temp12 chn2 sync batt id4
        type8)).2 = (type8 == TFA_TYPE) := by
  have hb2lt : temp12 / 256 + 16 * chn2 + 64 * (if sync then 1 else 0) +
      128 * (if batt then 1 else 0) < 256 := by
    cases sync <;> cases batt <;> simp <;> omega
  have hgd0 : (spec_layout_bytes rh temp12 chn2 sync batt id4 type8).getD 0 0 =
      rh := rfl
  have hgd1 : (spec_layout_bytes rh temp12 chn2 sync batt id4 type8).getD 1 0 =
      temp12 % 256 := rfl
  have hgd2 : (spec_layout_bytes rh temp12 chn2 sync batt id4 type8).getD 2 0 =
      temp12 / 256 + 16 * chn2 + 64 * (if sync then 1 else 0) +
        128 * (if batt then 1 else 0) := rfl
  have hgd3 : (spec_layout_bytes rh temp12 chn2 sync batt id4 type8).getD 3 0 =
      id4 + 16 * (type8 % 16) := rfl
  have hgd4 : (spec_layout_bytes rh temp12 chn2 sync batt id4 type8).getD 4 0 =
      type8 / 16 := rfl
  have htemp0 : (temp12 % 256 + 256 * (temp12 / 256 + 16 * chn2 +
      64 * (if sync then 1 else 0) + 128 * (if batt then 1 else 0))) &&&
      0x0FFF = temp12 := by
    rw [and_4095_mod]
    cases sync <;> cases batt <;> simp <;> omega
  have hchan : 1 + (((temp12 / 256 + 16 * chn2 + 64 * (if sync then 1 else 0) +
      128 * (if batt then 1 else 0)) >>> 4) &&& 0x03) = chn2 + 1 := by
    rw [shiftr4_div, and_3_mod]
    cases sync <;> cases batt <;> simp <;> omega
  have hidr : (id4 + 16 * (type8 % 16)) &&& 0x0F = id4 := by
    rw [and_15_mod]
    omega
  have htyper : ((id4 + 16 * (type8 % 16) + 256 * (type8 / 16)) >>> 4) &&&
      0xFF = type8 := by
    rw [shiftr4_div, and_255_mod]
    omega
  have hflag : (temp12 / 256 + 16 * chn2 + 64 * (if sync then 1 else 0) +
      128 * (if batt then 1 else 0)) &&& (TFA_LOW_BATT ||| TFA_SYNC) =
      64 * (if sync then 1 else 0) + 128 * (if batt then 1 else 0) := by
    have h192 : TFA_LOW_BATT ||| TFA_SYNC = 192 := by decide
    rw [h192, and_192_eq _ hb2lt]
    cases sync <;> cases batt <;> simp <;> omega
  have c1 : (tfa_parse_bytes (spec_layout_bytes rh temp12 chn2 sync batt id4
      type8)).1.rh = rh := by
    simp only [tfa_parse_bytes, hgd0]
  have c2 : (tfa_parse_bytes (spec_layout_bytes rh temp12 chn2 sync batt id4
      type8)).1.channel = chn2 + 1 := by
    simp only [tfa_parse_bytes, hgd2]
    exact hchan
  have c3 : (tfa_parse_bytes (spec_layout_bytes rh temp12 chn2 sync batt id4
      type8)).1.id = id4 := by
    simp only [tfa_parse_bytes, hgd3]
    exact hidr
  have c4 : (tfa_parse_bytes (spec_layout_bytes rh temp12 chn2 sync batt id4
      type8)).1.type = type8 := by
    simp only [tfa_parse_bytes, hgd3, hgd4]
    exact htyper
  have c5 : (tfa_parse_bytes (spec_layout_bytes rh temp12 chn2 sync batt id4
      type8)).1.temp =
      ((if temp12 < 2048 then (temp12 : ℤ) else (temp12 : ℤ) - 4096 : ℤ) : ℚ)
        / 10 := by
    simp only [tfa_parse_bytes, hgd1, hgd2]
    rw [htemp0, temp_signext temp12 ht]
  have c6 : (tfa_parse_bytes (spec_layout_bytes rh temp12 chn2 sync batt id4
      type8)).1.flags &&& TFA_SYNC = (if sync then TFA_SYNC else 0) := by
    simp only [tfa_parse_bytes, hgd2]
    rw [hflag]
    cases sync <;> cases batt <;> simp [TFA_NEW_PACKET, TFA_SYNC] <;> decide
  have c7 : (tfa_parse_bytes (spec_layout_bytes rh temp12 chn2 sync batt id4
      type8)).1.flags &&& TFA_LOW_BATT = (if batt then TFA_LOW_BATT else 0) :=
    by
    simp only [tfa_parse_bytes, hgd2]
    rw [hflag]
    cases sync <;> cases batt <;> simp [TFA_NEW_PACKET, TFA_LOW_BATT] <;> decide
  have c8 : (tfa_parse_bytes (spec_layout_bytes rh temp12 chn2 sync batt id4
      type8)).2 = (type8 == TFA_TYPE) := by
    simp only [tfa_parse_bytes, hgd3, hgd4]
    rw [htyper]
  exact ⟨c1, c2, c3, c4, c5, c6, c7, c8⟩

/-- `getD` after `set` at an in-range index returns the new element. -/
theorem set_getD_list (L : List (List ℕ)) (p : ℕ) (v : List ℕ)
    (hp : p < L.length) : (L.set p v).getD p [] = v := by
  rw [List.getD_eq_getElem?_getD, List.getElem?_set_self hp]
  simp

/-- C4: the Packet Framer stores the i-th received data bit (i = 0 first) at
byte `(35-i)/8`, bit `(35-i)%8` of the 5-byte capture, for every 36-bit
sequence framed between a start and a stop pulse; consequently, encoding a
reading (humidity, 12-bit temperature, channel, sync, battery, identity, type
tag) into 36 wire bits per the byte layout of spec section 3 and feeding it
through classifier and framer yields exactly the layout bytes as the capture,
and `tfa_parse` recovers the original reading: the round trip is the
identity. -/
theorem C4_capture_layout_roundtrip (s : FrameState) (tfa : TTFA)
    (hlen : s.buf.length = 7) (hp : s.packet < TFA_PACKETS)
    (hblen : (s.buf.getD s.packet []).length = 5)
    (hbwf : ∀ x ∈ s.buf.getD s.packet [], x < 256)
    (rh temp12 chn2 id4 type8 : ℕ) (sync batt : Bool)
    (hrh : rh < 256) (ht : temp12 < 4096) (hc : chn2 < 4) (hid : id4 < 16)
    (hty : type8 < 256) :
    (∀ bs : List Bool, bs.length = 36 → ∀ i, i < 36 →
      ((((tfa_run (startPulse :: (bs.map dataPulse ++ [stopPulse])) s
          tfa).1.buf.getD s.packet []).getD ((35 - i) / 8) 0).testBit
          ((35 - i) % 8)) = bs.getD i false) ∧
    (tfa_run (startPulse :: ((spec_wire_bits (spec_layout_bytes rh temp12 chn2
        sync batt id4 type8)).map dataPulse ++ [stopPulse])) s
        tfa).1.buf.getD s.packet [] =
      spec_layout_bytes rh temp12 chn2 sync batt id4 type8 ∧
    (tfa_parse { tfa with packet := ((tfa_run (startPulse ::
          ((spec_wire_bits (spec_layout_bytes rh temp12 chn2 sync batt id4
            type8)).map dataPulse ++ [stopPulse])) s
          tfa).1.buf.getD s.packet []) }).1.rh = rh ∧
    (tfa_parse { tfa with packet := ((tfa_run (startPulse ::
          ((spec_wire_bits (spec_layout_bytes rh temp12 chn2 sync batt id4
            type8)).map dataPulse ++ [stopPulse])) s
          tfa).1.buf.getD s.packet []) }).1.channel = chn2 + 1 ∧
    (tfa_parse { tfa with packet := ((tfa_run (startPulse ::
          ((spec_wire_bits (spec_layout_bytes rh temp12 chn2 sync batt id4
            type8)).map dataPulse ++ [stopPulse])) s
          tfa).1.buf.getD s.packet []) }).1.id = id4 ∧
    (tfa_parse { tfa with packet := ((tfa_run (startPulse ::
          ((spec_wire_bits (spec_layout_bytes rh temp12 chn2 sync batt id4
            type8)).map dataPulse ++ [stopPulse])) s
          tfa).1.buf.getD s.packet []) }).1.type = type8 ∧
    (tfa_parse { tfa with packet := ((tfa_run (startPulse ::
          ((spec_wire_bits (spec_layout_bytes rh temp12 chn2 sync batt id4
            type8)).map dataPulse ++ [stopPulse])) s
          tfa).1.buf.getD s.packet []) }).1.temp =
      ((if temp12 < 2048 then (temp12 : ℤ) else (temp12 : ℤ) - 4096 : ℤ) : ℚ)
        / 10 ∧
    (tfa_parse { tfa with packet := ((tfa_run (startPulse ::
          ((spec_wire_bits (spec_layout_bytes rh temp12 chn2 sync batt id4
            type8)).map dataPulse ++ [stopPulse])) s
          tfa).1.buf.getD s.packet []) }).1.flags &&& TFA_SYNC =
      (if sync then TFA_SYNC else 0) ∧
    (tfa_parse { tfa with packet := ((tfa_run (startPulse ::
          ((spec_wire_bits (spec_layout_bytes rh temp12 chn2 sync batt id4
            type8)).map dataPulse ++ [stopPulse])) s
          tfa).1.buf.getD s.packet []) }).1.flags &&& TFA_LOW_BATT =
      (if batt then TFA_LOW_BATT else 0) ∧
    (tfa_parse { tfa with packet := ((tfa_run (startPulse ::
          ((spec_wire_bits (spec_layout_bytes rh temp12 chn2 sync batt id4
            type8)).map dataPulse ++ [stopPulse])) s
          tfa).1.buf.getD s.packet []) }).2 = (type8 == TFA_TYPE) := by
  have hp7 : s.packet < 7 := hp
  have hlen5 : ((s.buf.getD s.packet []).set 4 0).length = 5 := by
    rw [List.length_set, hblen]
  have hwf5 : ∀ x ∈ (s.buf.getD s.packet []).set 4 0, x < 256 := by
    intro x hx
    rcases List.mem_or_eq_of_mem_set hx with h | h
    · exact hbwf x h
    · omega
  have hcap4 : ((s.buf.getD s.packet []).set 4 0).getD 4 0 < 16 := by
    rw [List.getD_eq_getElem?_getD, List.getElem?_set_self (by omega)]
    simp
  have parta : ∀ bs : List Bool, bs.length = 36 → ∀ i, i < 36 →
      ((((tfa_run (startPulse :: (bs.map dataPulse ++ [stopPulse])) s
          tfa).1.buf.getD s.packet []).getD ((35 - i) / 8) 0).testBit
          ((35 - i) % 8)) = bs.getD i false := by
    intro bs hbs i hi
    rw [frame_capture bs s tfa hlen hp hbs]
    dsimp only
    rw [set_getD_list _ _ _ (by omega)]
    rw [putBits_testBit bs _ 36 hlen5 hbs.symm (by omega) ((35-i)/8)
      (by omega) ((35-i)%8) (Nat.mod_lt _ (by omega))]
    have e : 8*((35-i)/8) + (35-i)%8 = 35 - i := by omega
    rw [e, if_pos (by omega)]
    have e2 : 36 - 1 - (35-i) = i := by omega
    rw [e2]
  have hwire := spec_wire_bits_length
    (spec_layout_bytes rh temp12 chn2 sync batt id4 type8)
  have hcap : (tfa_run (startPulse :: ((spec_wire_bits (spec_layout_bytes rh
      temp12 chn2 sync batt id4 type8)).map dataPulse ++ [stopPulse])) s
      tfa).1.buf.getD s.packet [] =
      spec_layout_bytes rh temp12 chn2 sync batt id4 type8 := by
    rw [frame_capture _ s tfa hlen hp hwire]
    dsimp only
    rw [set_getD_list _ _ _ (by omega)]
    exact putBits_spec_bytes _ hlen5 hwf5 _ hwire hcap4 _
      (spec_layout_length rh temp12 chn2 id4 type8 sync batt)
      (spec_layout_lt rh temp12 chn2 id4 type8 sync batt hrh ht hc hid hty)
      (by simp [spec_layout_bytes]; omega)
      (spec_wire_bits_getD _)
  have hpl := parse_layout rh temp12 chn2 id4 type8 sync batt hrh ht hc hid hty
  rw [hcap]
  have hpp : tfa_parse { tfa with packet := (spec_layout_bytes rh temp12 chn2
        sync batt id4 type8) } =
      tfa_parse_bytes (spec_layout_bytes rh temp12 chn2 sync batt id4 type8) :=
    rfl
  rw [hpp]
  exact ⟨parta, rfl, hpl.1, hpl.2.1, hpl.2.2.1, hpl.2.2.2.1, hpl.2.2.2.2.1,
    hpl.2.2.2.2.2.1, hpl.2.2.2.2.2.2.1, hpl.2.2.2.2.2.2.2⟩

theorem C4_witness :
    (tfa_run (startPulse :: ((spec_wire_bits (spec_layout_bytes 55 217 1 true
        false 9 144)).map dataPulse ++ [stopPulse])) fs0
        ttfa0).1.buf.getD fs0.packet [] =
      spec_layout_bytes 55 217 1 true false 9 144 ∧
    (tfa_parse { ttfa0 with packet := ((tfa_run (startPulse ::
          ((spec_wire_bits (spec_layout_bytes 55 217 1 true false 9
            144)).map dataPulse ++ [stopPulse])) fs0
          ttfa0).1.buf.getD fs0.packet []) }).1.channel = 1 + 1 ∧
    (tfa_parse { ttfa0 with packet := ((tfa_run (startPulse ::
          ((spec_wire_bits (spec_layout_bytes 55 217 1 true false 9
            144)).map dataPulse ++ [stopPulse])) fs0
          ttfa0).1.buf.getD fs0.packet []) }).1.id = 9 ∧
    (tfa_parse { ttfa0 with packet := ((tfa_run (startPulse ::
          ((spec_wire_bits (spec_layout_bytes 55 217 1 true false 9
            144)).map dataPulse ++ [stopPulse])) fs0
          ttfa0).1.buf.getD fs0.packet []) }).2 = (144 == TFA_TYPE) := by
  have h := C4_capture_layout_roundtrip fs0 ttfa0 (by decide) (by decide)
    (by decide) (by decide) 55 217 1 9 144 true false (by decide) (by decide)
    (by decide) (by decide) (by decide)
  exact ⟨h.2.1, h.2.2.2.1, h.2.2.2.2.1, h.2.2.2.2.2.2.2.2.2⟩

end TFA
